import Mathlib

/-!
Shallow embedding of the cantools ARXML core
(src/cantools/database/can/formats/arxml.py) and proofs about it.

The document is an immutable XML tree with a single XML namespace (the
namespace is carried separately; element tags are stored without their
namespace marker).  Python object identity on ElementTree nodes is modelled
by tree positions (the list of child indices from the root).  Python
exceptions (ValueError, AssertionError, AttributeError, TypeError, ...) are
modelled by an explicit error monad.  Machine integers are Int, exact
decimal/rational arithmetic is Rat.
-/

namespace Arxml

/-- Errors: each constructor models one family of Python exceptions raised
by the ARXML core (or an artefact of the embedding such as fuel). -/
inductive Err : Type where
  | attributeError : Err
  | typeError : Err
  | valueError : Err
  | keyError : Err
  | indexError : Err
  | assertionError : Err
  | notImplementedError : Err
  | unrecognizedNamespace : Err
  | unparsableVersion : Err
  | unsupportedVersion : Err
  | duplicatePath (path : String) : Err
  | multipleDefaultRefbase : Err
  | globalRefbase : Err
  | duplicateRefbaseName : Err
  | unknownRefbase : Err
  | danglingReference (text : String) : Err
  | ambiguousChildren : Err
  | nonUniqueChild : Err
  | nonExistingNode : Err
  | internalPos : Err
  | outOfFuel : Err
deriving DecidableEq, Repr

deriving instance DecidableEq for Except

/-- First-match lookup in an association list (models dict lookup for the
dictionaries of the loader, all of which have pairwise distinct keys). -/
def alGet {α β : Type} [DecidableEq α] : List (α × β) → α → Option β
  | [], _ => none
  | (k, v) :: r, a => if k = a then some v else alGet r a

/-- Keys of an association list. -/
def keysOf {α β : Type} (l : List (α × β)) : List α := l.map Prod.fst

/-- Python dict item assignment: replace the value in place if the key is
present, otherwise append the new pair at the end (insertion order). -/
def dictSet {α β : Type} [DecidableEq α] : List (α × β) → α → β → List (α × β)
  | [], k, v => [(k, v)]
  | (a, b) :: r, k, v => if a = k then (k, v) :: r else (a, b) :: dictSet r k v

/-- Python dict.update: assign every pair of the second dict in order. -/
def dictUpd {α β : Type} [DecidableEq α] (d : List (α × β)) (new : List (α × β)) :
    List (α × β) :=
  new.foldl (fun acc kv => dictSet acc kv.1 kv.2) d

theorem alGet_eq_none_iff {α β : Type} [DecidableEq α] (l : List (α × β)) (a : α) :
    alGet l a = none ↔ a ∉ keysOf l := by
  induction l with
  | nil => simp [alGet, keysOf]
  | cons p r ih =>
    obtain ⟨k, v⟩ := p
    simp only [alGet, keysOf, List.map_cons, List.mem_cons]
    by_cases h : k = a
    · subst h; simp
    · rw [if_neg h, ih]
      unfold keysOf
      simp only [not_or]
      constructor
      · intro hr; exact ⟨fun he => h he.symm, hr⟩
      · intro hr; exact hr.2

theorem alGet_isSome_of_mem {α β : Type} [DecidableEq α] {l : List (α × β)}
    {a : α} {b : β} (h : (a, b) ∈ l) : (alGet l a).isSome := by
  induction l with
  | nil => simp at h
  | cons p r ih =>
    obtain ⟨k, v⟩ := p
    rcases List.mem_cons.mp h with h' | h'
    · cases h'; simp [alGet]
    · by_cases hk : k = a <;> simp [alGet, hk, ih h']

theorem alGet_of_nodup_mem {α β : Type} [DecidableEq α] {l : List (α × β)}
    (hnd : (keysOf l).Nodup) {a : α} {b : β} (h : (a, b) ∈ l) :
    alGet l a = some b := by
  induction l with
  | nil => simp at h
  | cons p r ih =>
    obtain ⟨k, v⟩ := p
    simp only [keysOf, List.map_cons, List.nodup_cons] at hnd
    rcases List.mem_cons.mp h with h' | h'
    · cases h'; simp [alGet]
    · have hk : k ≠ a := by
        intro hka
        apply hnd.1
        rw [hka]
        exact List.mem_map.mpr ⟨(a, b), h', rfl⟩
      simpa [alGet, hk] using ih hnd.2 h'

/-! ## Models of Python string and number primitives -/

/-- The whitespace characters removed by Python str.strip(). -/
def pyIsSpace (c : Char) : Bool :=
  c = ' ' ∨ c = '\t' ∨ c = '\n' ∨ c = '\r' ∨ c = '\x0b' ∨ c = '\x0c'

/-- Leading-match test on character lists (computable model of
str.startswith on the decoded characters). -/
def listLead : List Char → List Char → Bool
  | [], _ => true
  | _ :: _, [] => false
  | a :: as, b :: bs => a == b && listLead as bs

/-- str.startswith. -/
def pyStartsWith (s pre : String) : Bool := listLead pre.toList s.toList

/-- str.endswith. -/
def pyEndsWith (s suf : String) : Bool :=
  listLead suf.toList.reverse s.toList.reverse

/-- Accumulating loop of str.split with a one-character separator. -/
def splitCharAux (sep : Char) : List Char → List Char → List String
  | [], acc => [⟨acc.reverse⟩]
  | c :: r, acc =>
      if c == sep then ⟨acc.reverse⟩ :: splitCharAux sep r []
      else splitCharAux sep r (c :: acc)

/-- str.split with a one-character separator. -/
def pySplitChar (sep : Char) (s : String) : List String :=
  splitCharAux sep s.toList []

/-- Python str.strip() with no argument. -/
def pyStrip (s : String) : String :=
  ⟨((s.toList.dropWhile pyIsSpace).reverse.dropWhile pyIsSpace).reverse⟩

/-- Value of a digit character for bases up to 16, none if invalid. -/
def digitVal (c : Char) : Option Nat :=
  if '0' ≤ c ∧ c ≤ '9' then some (c.toNat - '0'.toNat)
  else if 'a' ≤ c ∧ c ≤ 'f' then some (c.toNat - 'a'.toNat + 10)
  else if 'A' ≤ c ∧ c ≤ 'F' then some (c.toNat - 'A'.toNat + 10)
  else none

/-- Digits of a given base folded into a Nat; none on an empty digit string
or on a character that is not a digit of the base.  (Models the digit part
of the Python int() constructor; digit-group underscores are outside the
modelled fragment.) -/
def natOfDigits (base : Nat) : List Char → Option Nat
  | [] => none
  | cs => cs.foldlM (fun acc c =>
      match digitVal c with
      | some d => if d < base then some (acc * base + d) else none
      | none => none) 0

/-- Optional sign, returning the multiplier and the remaining characters. -/
def pySign : List Char → (Int × List Char)
  | '+' :: r => (1, r)
  | '-' :: r => (-1, r)
  | cs => (1, cs)

/-- Python int(s, 8): optional sign, optional 0o or 0O marker, octal
digits.  int() strips surrounding whitespace itself. -/
def pyIntOct (s : String) : Option Int := do
  let (sg, cs) := pySign (pyStrip s).toList
  let cs := match cs with
            | '0' :: 'o' :: r => r
            | '0' :: 'O' :: r => r
            | r => r
  let n ← natOfDigits 8 cs
  return sg * n

/-- Python int(s, 0): optional sign, then base autodetection by the 0x, 0o
or 0b marker; a plain decimal number must not have a leading zero unless it
is all zeros. -/
def pyIntAuto (s : String) : Option Int := do
  let (sg, cs) := pySign (pyStrip s).toList
  match cs with
  | '0' :: 'x' :: r => do let n ← natOfDigits 16 r; return sg * n
  | '0' :: 'X' :: r => do let n ← natOfDigits 16 r; return sg * n
  | '0' :: 'o' :: r => do let n ← natOfDigits 8 r; return sg * n
  | '0' :: 'O' :: r => do let n ← natOfDigits 8 r; return sg * n
  | '0' :: 'b' :: r => do let n ← natOfDigits 2 r; return sg * n
  | '0' :: 'B' :: r => do let n ← natOfDigits 2 r; return sg * n
  | cs => do
      let n ← natOfDigits 10 cs
      match cs with
      | '0' :: _ :: _ => if n = 0 then return sg * n else none
      | _ => return sg * n

/-- Python int(s) with the default base 10. -/
def pyIntDec (s : String) : Option Int := do
  let (sg, cs) := pySign (pyStrip s).toList
  let n ← natOfDigits 10 cs
  return sg * n

/-- Decimal literal (integer part, optional fraction) as an exact rational;
models the common fragment of Python float(s) and decimal.Decimal(s). -/
def pyNumQ (s : String) : Option ℚ :=
  let (sg, cs) := pySign (pyStrip s).toList
  let ip := cs.takeWhile Char.isDigit
  let rest := cs.drop ip.length
  let readNat : List Char → Nat := fun ds =>
    ds.foldl (fun a c => a * 10 + (c.toNat - '0'.toNat)) 0
  match rest with
  | [] =>
      if ip.isEmpty then none
      else some ((sg : ℚ) * (readNat ip : ℚ))
  | '.' :: fp =>
      if fp.all Char.isDigit ∧ ¬(ip.isEmpty ∧ fp.isEmpty) then
        some ((sg : ℚ) *
          ((readNat ip : ℚ) + (readNat fp : ℚ) / ((10 : ℚ) ^ fp.length)))
      else none
  | _ => none

/-- Python int(q) on a float value: truncation toward zero. -/
def pyTruncQ (q : ℚ) : Int :=
  if q < 0 then -((q.num.natAbs / q.den : Nat) : Int)
  else ((q.num.natAbs / q.den : Nat) : Int)

/-- Option-to-Except adapter for Python calls that raise ValueError. -/
def ofOpt {α : Type} : Option α → Except Err α
  | some a => .ok a
  | none => .error .valueError

/-! ## parse_int_string

Source: arxml.py lines 37-46.  Call sites pass node.text, which may be the
Python None (then str.strip() raises AttributeError inside the function);
the model therefore takes an Option String. -/

/-- parse_int_string: strip; empty means 0; a leading zero followed by a
digit is read as octal; anything else is read with base autodetection. -/
def parse_int_string (o : Option String) : Except Err Int :=
  match o with
  | none => .error .attributeError
  | some s0 =>
    let s := pyStrip s0
    if s.isEmpty then .ok 0
    else
      match s.toList with
      | [] => .ok 0
      | c0 :: rest =>
        if c0 = '0' ∧ (rest.head?.elim false Char.isDigit) then
          ofOpt (pyIntOct s)
        else
          ofOpt (pyIntAuto s)

/-! ## Version detection (SystemLoader.__init__, lines 63-113) -/

/-- Characters allowed in the version capture groups of the namespace
regular expressions: digits and dots. -/
def isDigitOrDot (c : Char) : Bool := c.isDigit ∨ c = '.'

/-- Drop an expected literal from the front of a character list. -/
def dropLit : List Char → List Char → Option (List Char)
  | [], cs => some cs
  | _ :: _, [] => none
  | l :: ls, c :: cs => if c = l then dropLit ls cs else none

/-- Full match of the AUTOSAR 4 namespace pattern
http://autosar.org/schema/r(4 DOT [0-9.]*), returning the capture. -/
def nsMatch4 (s : String) : Option String :=
  match dropLit "http://autosar.org/schema/r".toList s.toList with
  | some ('4' :: '.' :: rest) =>
      if rest.all isDigitOrDot then some ⟨'4' :: '.' :: rest⟩ else none
  | _ => none

/-- Full match of the AUTOSAR 3 namespace pattern
http://autosar.org/(3 DOT [0-9.]*), returning the capture. -/
def nsMatch3 (s : String) : Option String :=
  match dropLit "http://autosar.org/".toList s.toList with
  | some ('3' :: '.' :: rest) =>
      if rest.all isDigitOrDot then some ⟨'3' :: '.' :: rest⟩ else none
  | _ => none

/-- Full match of the Daimler namespace pattern
http://autosar.org/([0-9.]*) DOT DAI DOT [0-9], returning the capture. -/
def nsMatchDai (s : String) : Option String :=
  match dropLit "http://autosar.org/".toList s.toList with
  | some rest =>
      match rest.reverse with
      | d :: '.' :: 'I' :: 'A' :: 'D' :: '.' :: grev =>
          let g := grev.reverse
          if d.isDigit ∧ g.all isDigitOrDot then some ⟨g⟩ else none
      | _ => none
  | none => none

/-- One matched digit group fed to Python int(): an empty group raises. -/
def intGroup (ds : List Char) : Except Err Nat :=
  if ds.isEmpty then .error .valueError
  else .ok (ds.foldl (fun a c => a * 10 + (c.toNat - '0'.toNat)) 0)

/-- The version-string pattern ([0-9]*)(DOT[0-9]*)?(DOT[0-9]*)? anchored at
both ends, with each matched group fed to Python int(); an empty group is an
int() ValueError, a structural mismatch does not match at all.  Returns the
(major, minor, patch) triple with omitted groups read as 0. -/
def parseVersionChars (cs : List Char) : Except Err (Nat × Nat × Nat) :=
  let g1 := cs.takeWhile Char.isDigit
  let r1 := cs.drop g1.length
  match r1 with
  | [] => do
      let a ← intGroup g1
      return (a, 0, 0)
  | '.' :: r2 =>
      let g2 := r2.takeWhile Char.isDigit
      let r3 := r2.drop g2.length
      match r3 with
      | [] => do
          let a ← intGroup g1
          let b ← intGroup g2
          return (a, b, 0)
      | '.' :: r4 =>
          let g3 := r4.takeWhile Char.isDigit
          let r5 := r4.drop g3.length
          if r5.isEmpty then do
            let a ← intGroup g1
            let b ← intGroup g2
            let c ← intGroup g3
            return (a, b, c)
          else .error .unparsableVersion
      | _ => .error .unparsableVersion
  | _ => .error .unparsableVersion

/-- The version-string pattern applied to a string. -/
def parseVersionString (s : String) : Except Err (Nat × Nat × Nat) :=
  parseVersionChars s.toList

/-- The version-detection part of SystemLoader.__init__: classify the XML
namespace by the three patterns (AUTOSAR 4 first, then AUTOSAR 3, then
Daimler), parse the captured version string, and require major 3 or 4. -/
def detectArVersion (xmlNamespace : String) : Except Err (Nat × Nat × Nat) := do
  let vstr ←
    match nsMatch4 xmlNamespace with
    | some v => pure v
    | none =>
      match nsMatch3 xmlNamespace with
      | some v => pure v
      | none =>
        match nsMatchDai xmlNamespace with
        | some v => pure v
        | none => .error .unrecognizedNamespace
  let (a, b, c) ← parseVersionString vstr
  if a ≠ 4 ∧ a ≠ 3 then .error .unsupportedVersion
  else return (a, b, c)

/-! ## autosar_version_newer (lines 117-153) -/

/-- SystemLoader.autosar_version_newer on a detected triple: true iff the
detected ARXML version is at least the queried one; an omitted (None) query
component and its lesser parts are ignored. -/
def autosar_version_newer (vmaj vmin vpat : Nat) (major : Nat)
    (minor : Option Nat := none) (patch : Option Nat := none) : Bool :=
  if vmaj > major then true
  else if vmaj < major then false
  else
    match minor with
    | none => true
    | some mi =>
      if vmin > mi then true
      else if vmin < mi then false
      else
        match patch with
        | none => true
        | some pa =>
          if vpat > pa then true
          else if vpat < pa then false
          else true

/-- ASCII lowering, models str.lower() on the ASCII fragment. -/
def pyLower (s : String) : String := ⟨s.toList.map Char.toLower⟩

/-! ## The XML document model

An element stores its tag (namespace stripped: the whole document uses a
single XML namespace, kept in the loader context), its text, its attributes
and its children.  Python object identity of ElementTree nodes is modelled
by tree positions. -/

/-- An XML element. -/
inductive XmlElem : Type where
  | mk (tag : String) (text : Option String) (attrs : List (String × String))
       (children : List XmlElem)

/-- Tag accessor. -/
def XmlElem.tag : XmlElem → String
  | .mk t _ _ _ => t

/-- Text accessor. -/
def XmlElem.text : XmlElem → Option String
  | .mk _ x _ _ => x

/-- Attribute-list accessor. -/
def XmlElem.attrs : XmlElem → List (String × String)
  | .mk _ _ a _ => a

/-- Children accessor. -/
def XmlElem.children : XmlElem → List XmlElem
  | .mk _ _ _ c => c

/-- A position: the list of child indices leading from the root to a node
(models Python object identity for tree nodes). -/
abbrev Pos := List Nat

/-- The node of a document at a position. -/
def elemAt : XmlElem → Pos → Option XmlElem
  | e, [] => some e
  | e, i :: r =>
    match e.children.get? i with
    | some c => elemAt c r
    | none => none

/-- ElementTree find of a direct child by (namespace-stripped) tag. -/
def findChild (e : XmlElem) (t : String) : Option XmlElem :=
  e.children.find? (fun c => c.tag = t)

/-- elem.attrib.get(key). -/
def attrGet (e : XmlElem) (k : String) : Option String := alGet e.attrs k

/-- One node strictly or weakly below another in the tree: q lies in the
subtree rooted at p. -/
def below (p q : Pos) : Prop := ∃ r, q = p ++ r

theorem below_refl (p : Pos) : below p p := ⟨[], by simp⟩

theorem below_trans {p q r : Pos} (h1 : below p q) (h2 : below q r) :
    below p r := by
  obtain ⟨a, ha⟩ := h1
  obtain ⟨b, hb⟩ := h2
  exact ⟨a ++ b, by simp [hb, ha]⟩

theorem below_child {p : Pos} (i : Nat) {q : Pos} (h : below (p ++ [i]) q) :
    below p q := by
  obtain ⟨r, hr⟩ := h
  exact ⟨[i] ++ r, by simp [hr]⟩

theorem not_below_child_self (p : Pos) (i : Nat) : ¬ below (p ++ [i]) p := by
  rintro ⟨r, hr⟩
  have := congrArg List.length hr
  simp at this

theorem below_child_ne {p : Pos} {i j : Nat} (hij : i ≠ j) {q : Pos}
    (hi : below (p ++ [i]) q) : ¬ below (p ++ [j]) q := by
  rintro ⟨s, hs⟩
  obtain ⟨r, hr⟩ := hi
  rw [hr] at hs
  have h2 : i :: r = j :: s := by
    have hps : p ++ i :: r = p ++ j :: s := by simpa using hs
    exact List.append_cancel_left hps
  exact hij (by injection h2)

/-! ## The reference index (SystemLoader._create_arxml_reference_dicts,
lines 1121-1203) -/

/-- The four dictionaries built by the single indexing traversal. -/
structure RefState where
  nodeToPath : List (Pos × String)
  pathToNode : List (String × Pos)
  pkgDefaultRefbase : List (String × String)
  pkgRefbases : List (String × List (String × String))
deriving DecidableEq, Repr

/-- The empty initial index. -/
def RefState.empty : RefState := ⟨[], [], [], []⟩

/-- Path registration part of add_sub_references for one element: if the
element has a SHORT-NAME child, extend the reference path and register the
path-to-node entry (duplicate paths are fatal); always register the
node-to-path entry. -/
def refStepMaps (e : XmlElem) (pos : Pos) (elemPath : String) (st : RefState) :
    Except Err (String × RefState) :=
  match findChild e "SHORT-NAME" with
  | some sn =>
      if (alGet st.pathToNode (elemPath ++ "/" ++ sn.text.getD "None")).isSome
      then
        .error (.duplicatePath (elemPath ++ "/" ++ sn.text.getD "None"))
      else
        .ok (elemPath ++ "/" ++ sn.text.getD "None",
          { st with
            pathToNode :=
              (elemPath ++ "/" ++ sn.text.getD "None", pos) :: st.pathToNode,
            nodeToPath :=
              (pos, elemPath ++ "/" ++ sn.text.getD "None") :: st.nodeToPath })
  | none =>
      .ok (elemPath, { st with nodeToPath := (pos, elemPath) :: st.nodeToPath })

/-- Package-path and REFERENCE-BASE part of add_sub_references for one
element.  Only the two package dictionaries of the state are read, and only
they are returned updated (this part of the traversal never touches the two
path maps). -/
def refStepBases (e : XmlElem) (curPkgPath : String) (st : RefState) :
    Except Err (String × List (String × String) ×
                List (String × List (String × String))) := do
  let snText := ((findChild e "SHORT-NAME").map (fun sn => sn.text.getD "None")).getD "None"
  let curPkgPath :=
    if e.tag = "AR-PACKAGE" then curPkgPath ++ "/" ++ snText else curPkgPath
  if e.tag = "REFERENCE-BASE" then do
    let labelElem ← match findChild e "SHORT-LABEL" with
                    | some x => pure x
                    | none => Except.error Err.attributeError
    let refbaseName ← match labelElem.text with
                      | some x => pure (pyStrip x)
                      | none => Except.error Err.attributeError
    let pkgRefElem ← match findChild e "PACKAGE-REF" with
                     | some x => pure x
                     | none => Except.error Err.attributeError
    let refbasePath ← match pkgRefElem.text with
                      | some x => pure (pyStrip x)
                      | none => Except.error Err.attributeError
    let isDefault ←
      match findChild e "IS-DEFAULT" with
      | none => pure false
      | some d =>
        match d.text with
        | some x => pure (pyLower (pyStrip x) == "true")
        | none => Except.error Err.attributeError
    let dflt ←
      if isDefault ∧ (alGet st.pkgDefaultRefbase curPkgPath).isSome then
        Except.error Err.multipleDefaultRefbase
      else if isDefault then
        pure ((curPkgPath, refbasePath) :: st.pkgDefaultRefbase)
      else pure st.pkgDefaultRefbase
    let isGlobal ←
      match findChild e "IS-GLOBAL" with
      | none => pure false
      | some g =>
        match g.text with
        | some x => pure (pyLower (pyStrip x) == "true")
        | none => Except.error Err.attributeError
    if isGlobal then Except.error Err.globalRefbase
    else
      match alGet st.pkgRefbases curPkgPath with
      | none =>
          return (curPkgPath, dflt,
            (curPkgPath, [(refbaseName, refbasePath)]) :: st.pkgRefbases)
      | some inner =>
          if (alGet inner refbaseName).isSome then
            Except.error Err.duplicateRefbaseName
          else
            let newInner := dictSet inner refbaseName refbasePath
            let newOuter := dictSet st.pkgRefbases curPkgPath newInner
            return (curPkgPath, dflt, newOuter)
  else
    return (curPkgPath, st.pkgDefaultRefbase, st.pkgRefbases)

/-- add_sub_references for one element, without the recursion into the
children. -/
def refStep (e : XmlElem) (pos : Pos) (elemPath curPkgPath : String)
    (st : RefState) : Except Err (String × String × RefState) := do
  let (path1, st1) ← refStepMaps e pos elemPath st
  let (pkg1, dflt1, bases1) ← refStepBases e curPkgPath st1
  return (path1, pkg1,
    { st1 with pkgDefaultRefbase := dflt1, pkgRefbases := bases1 })

mutual

/-- add_sub_references: depth-first pre-order traversal registering the
reference dictionaries.  Fuel-indexed so the definition evaluates in the
kernel; fuel bounds the recursion depth. -/
def addSubRefs : Nat → XmlElem → Pos → String → String → RefState →
    Except Err RefState
  | 0, _, _, _, _, _ => .error .outOfFuel
  | n + 1, e, pos, path, pkg, st => do
      let r ← refStep e pos path pkg st
      addSubRefsChildren n e.children pos 0 r.1 r.2.1 r.2.2

/-- Loop over the children of an element in add_sub_references. -/
def addSubRefsChildren : Nat → List XmlElem → Pos → Nat → String → String →
    RefState → Except Err RefState
  | 0, _, _, _, _, _, _ => .error .outOfFuel
  | _ + 1, [], _, _, _, _, st => .ok st
  | n + 1, c :: rest, pos, i, path, pkg, st => do
      let st' ← addSubRefs n c (pos ++ [i]) path pkg st
      addSubRefsChildren n rest pos (i + 1) path pkg st'

end

/-- Build the reference index of a whole document
(SystemLoader._create_arxml_reference_dicts). -/
def buildIndex (fuel : Nat) (root : XmlElem) : Except Err RefState :=
  addSubRefs fuel root [] "" "" RefState.empty

/-! ## Invariants of the reference index -/

/-- Well-formedness of the two path maps: pairwise distinct keys on both
sides, and every registered path-to-node pair mirrored by the node-to-path
map. -/
def MapsInv (st : RefState) : Prop :=
  (keysOf st.pathToNode).Nodup ∧ (keysOf st.nodeToPath).Nodup ∧
  ∀ pr ∈ st.pathToNode, alGet st.nodeToPath pr.2 = some pr.1

/-- No node of the subtree rooted at a position has been registered yet. -/
def FreshAt (st : RefState) (pos : Pos) : Prop :=
  ∀ k ∈ keysOf st.nodeToPath, ¬ below pos k

theorem refStepMaps_spec {e : XmlElem} {pos : Pos} {path : String}
    {st : RefState} {p' : String} {st' : RefState}
    (h : refStepMaps e pos path st = .ok (p', st')) :
    st'.nodeToPath = (pos, p') :: st.nodeToPath ∧
    st'.pkgDefaultRefbase = st.pkgDefaultRefbase ∧
    st'.pkgRefbases = st.pkgRefbases ∧
    (st'.pathToNode = st.pathToNode ∨
      (alGet st.pathToNode p' = none ∧
       st'.pathToNode = (p', pos) :: st.pathToNode)) := by
  unfold refStepMaps at h
  cases hsn : findChild e "SHORT-NAME" with
  | none =>
      simp only [hsn] at h
      injection h with h
      injection h with h1 h2
      subst h1
      subst h2
      exact ⟨rfl, rfl, rfl, Or.inl rfl⟩
  | some sn =>
      simp only [hsn] at h
      cases hdup : alGet st.pathToNode (path ++ "/" ++ sn.text.getD "None") with
      | some v => simp [hdup] at h
      | none =>
          simp only [hdup, Option.isSome_none, Bool.false_eq_true,
            if_false] at h
          injection h with h
          injection h with h1 h2
          subst h1
          subst h2
          exact ⟨rfl, rfl, rfl, Or.inr ⟨hdup, rfl⟩⟩

theorem refStep_spec {e : XmlElem} {pos : Pos} {path pkg : String}
    {st : RefState} {out : String × String × RefState}
    (h : refStep e pos path pkg st = .ok out) :
    out.2.2.nodeToPath = (pos, out.1) :: st.nodeToPath ∧
    (out.2.2.pathToNode = st.pathToNode ∨
      (alGet st.pathToNode out.1 = none ∧
       out.2.2.pathToNode = (out.1, pos) :: st.pathToNode)) := by
  unfold refStep at h
  cases hm : refStepMaps e pos path st with
  | error err => simp [hm, bind, Except.bind] at h
  | ok r =>
      obtain ⟨p1, st1⟩ := r
      cases hb : refStepBases e pkg st1 with
      | error err => simp [hm, hb, bind, Except.bind] at h
      | ok rb =>
          obtain ⟨pk1, d1, b1⟩ := rb
          simp only [hm, hb, bind, Except.bind, pure, Except.pure] at h
          have hspec := refStepMaps_spec hm
          injection h with h
          subst h
          refine ⟨by simpa using hspec.1, ?_⟩
          rcases hspec.2.2.2 with h' | h'
          · exact Or.inl (by simpa using h')
          · exact Or.inr ⟨h'.1, by simpa using h'.2⟩

/-- The core invariant of the indexing traversal: starting from a
well-formed state in which the current subtree is unregistered, a successful
traversal yields a well-formed state whose new node keys all lie in that
subtree. -/
theorem addSubRefs_inv : ∀ n : Nat,
    (∀ (e : XmlElem) (pos : Pos) (path pkg : String) (st st' : RefState),
      addSubRefs n e pos path pkg st = .ok st' → MapsInv st → FreshAt st pos →
      MapsInv st' ∧
      ∀ k ∈ keysOf st'.nodeToPath, k ∈ keysOf st.nodeToPath ∨ below pos k) ∧
    (∀ (cs : List XmlElem) (pos : Pos) (i : Nat) (path pkg : String)
       (st st' : RefState),
      addSubRefsChildren n cs pos i path pkg st = .ok st' → MapsInv st →
      (∀ k ∈ keysOf st.nodeToPath, ∀ j, i ≤ j → ¬ below (pos ++ [j]) k) →
      MapsInv st' ∧
      ∀ k ∈ keysOf st'.nodeToPath,
        k ∈ keysOf st.nodeToPath ∨ ∃ j, i ≤ j ∧ below (pos ++ [j]) k) := by
  intro n
  induction n with
  | zero =>
      constructor
      · intro e pos path pkg st st' h
        simp [addSubRefs] at h
      · intro cs pos i path pkg st st' h
        simp [addSubRefsChildren] at h
  | succ n ih =>
      obtain ⟨ihE, ihC⟩ := ih
      constructor
      · intro e pos path pkg st st' h hinv hfresh
        rw [addSubRefs] at h
        cases hr : refStep e pos path pkg st with
        | error err => simp [hr, bind, Except.bind] at h
        | ok r =>
            simp only [hr, bind, Except.bind] at h
            obtain ⟨hn, hpn⟩ := refStep_spec hr
            -- the state after processing the element itself
            have hposkey : pos ∉ keysOf st.nodeToPath := by
              intro hk
              exact hfresh pos hk (below_refl pos)
            have hinv1 : MapsInv r.2.2 := by
              obtain ⟨hnd1, hnd2, hmirror⟩ := hinv
              refine ⟨?_, ?_, ?_⟩
              · rcases hpn with h' | h'
                · rw [h']; exact hnd1
                · rw [h'.2]
                  unfold keysOf
                  simp only [List.map_cons, List.nodup_cons]
                  exact ⟨(alGet_eq_none_iff _ _).mp h'.1, hnd1⟩
              · rw [hn]
                unfold keysOf
                simp only [List.map_cons, List.nodup_cons]
                exact ⟨hposkey, hnd2⟩
              · intro pr hpr
                have hlift : ∀ q ∈ st.pathToNode,
                    alGet r.2.2.nodeToPath q.2 = some q.1 := by
                  intro q hq
                  have hq2 : q.2 ∈ keysOf st.nodeToPath := by
                    by_contra hcon
                    have hms := hmirror q hq
                    rw [(alGet_eq_none_iff _ _).mpr hcon] at hms
                    simp at hms
                  have hne : ¬ (pos = q.2) := by
                    intro he
                    exact hposkey (he ▸ hq2)
                  rw [hn]
                  simp only [alGet]
                  rw [if_neg hne]
                  exact hmirror q hq
                rcases hpn with h' | h'
                · rw [h'] at hpr
                  exact hlift pr hpr
                · rw [h'.2] at hpr
                  rcases List.mem_cons.mp hpr with h'' | h''
                  · subst h''
                    rw [hn]
                    simp [alGet]
                  · exact hlift pr h''
            have hfreshC : ∀ k ∈ keysOf r.2.2.nodeToPath, ∀ j, 0 ≤ j →
                ¬ below (pos ++ [j]) k := by
              intro k hk j _
              rw [hn] at hk
              unfold keysOf at hk
              simp only [List.map_cons, List.mem_cons] at hk
              rcases hk with h' | h'
              · rw [h']
                exact not_below_child_self pos j
              · intro hb
                exact hfresh k h' (below_child j hb)
            obtain ⟨hinv', hkeys'⟩ := ihC e.children pos 0 r.1 r.2.1 r.2.2 st'
              h hinv1 hfreshC
            refine ⟨hinv', ?_⟩
            intro k hk
            rcases hkeys' k hk with h' | h'
            · rw [hn] at h'
              unfold keysOf at h'
              simp only [List.map_cons, List.mem_cons] at h'
              rcases h' with h'' | h''
              · rw [h'']
                exact Or.inr (below_refl pos)
              · exact Or.inl h''
            · obtain ⟨j, _, hbj⟩ := h'
              exact Or.inr (below_child j hbj)
      · intro cs pos i path pkg st st' h hinv hfresh
        cases cs with
        | nil =>
            rw [addSubRefsChildren] at h
            injection h with h
            subst h
            exact ⟨hinv, fun k hk => Or.inl hk⟩
        | cons c rest =>
            rw [addSubRefsChildren] at h
            cases hc : addSubRefs n c (pos ++ [i]) path pkg st with
            | error err => simp [hc, bind, Except.bind] at h
            | ok st1 =>
                simp only [hc, bind, Except.bind] at h
                have hfresh1 : FreshAt st (pos ++ [i]) := by
                  intro k hk
                  exact hfresh k hk i le_rfl
                obtain ⟨hinv1, hkeys1⟩ := ihE c (pos ++ [i]) path pkg st st1
                  hc hinv hfresh1
                have hfresh2 : ∀ k ∈ keysOf st1.nodeToPath, ∀ j, i + 1 ≤ j →
                    ¬ below (pos ++ [j]) k := by
                  intro k hk j hj
                  rcases hkeys1 k hk with h' | h'
                  · exact hfresh k h' j (Nat.le_of_succ_le hj)
                  · exact below_child_ne (by omega) h'
                obtain ⟨hinv2, hkeys2⟩ := ihC rest pos (i + 1) path pkg st1 st'
                  h hinv1 hfresh2
                refine ⟨hinv2, ?_⟩
                intro k hk
                rcases hkeys2 k hk with h' | h'
                · rcases hkeys1 k h' with h'' | h''
                  · exact Or.inl h''
                  · exact Or.inr ⟨i, le_rfl, h''⟩
                · obtain ⟨j, hj, hbj⟩ := h'
                  exact Or.inr ⟨j, by omega, hbj⟩

/-- A successfully built reference index satisfies the maps invariant. -/
theorem buildIndex_inv {fuel : Nat} {root : XmlElem} {idx : RefState}
    (h : buildIndex fuel root = .ok idx) : MapsInv idx := by
  have hempty : MapsInv RefState.empty := by
    refine ⟨?_, ?_, ?_⟩ <;> simp [RefState.empty, keysOf]
  have hfresh : FreshAt RefState.empty [] := by
    intro k hk
    simp [RefState.empty, keysOf] at hk
  exact ((addSubRefs_inv fuel).1 root [] "" "" RefState.empty idx h hempty
    hfresh).1

/-! ## Loader context and the generic child locator
(_follow_arxml_reference lines 1044-1118, _get_arxml_children lines
1205-1307, _get_unique_arxml_child lines 1309-1326) -/

/-- The state of a SystemLoader: the parsed document, its reference index
and the detected AUTOSAR version triple. -/
structure Ctx where
  doc : XmlElem
  idx : RefState
  vMajor : Nat
  vMinor : Nat
  vPatch : Nat

/-- self.autosar_version_newer on a loader context. -/
def Ctx.newer (ctx : Ctx) (major : Nat) (minor : Option Nat := none)
    (patch : Option Nat := none) : Bool :=
  autosar_version_newer ctx.vMajor ctx.vMinor ctx.vPatch major minor patch

/-- Dereference a position (positions handed around by the locator always
point into the document). -/
def getE (ctx : Ctx) (p : Pos) : Except Err XmlElem :=
  match elemAt ctx.doc p with
  | some e => .ok e
  | none => .error .internalPos

/-- node.text of the node at a position. -/
def textAt (ctx : Ctx) (p : Pos) : Except Err (Option String) := do
  let e ← getE ctx p
  return e.text

/-- node.text where the node itself may be the Python None, in which case
the attribute access raises. -/
def textOf (ctx : Ctx) (p : Option Pos) : Except Err (Option String) :=
  match p with
  | none => .error .attributeError
  | some q => textAt ctx q

/-- The longest-prefix search of _follow_arxml_reference for an applicable
reference base: walk the prefixes of the base path of the referring node
from longest to shortest; skip prefixes registered as a non-package node;
take the default base of the package (no BASE attribute) or its base of the
given name. -/
def resolveRefbase (ctx : Ctx) (baseParts : List String)
    (refbaseName : Option String) : Nat → Except Err (Option String)
  | 0 => .ok none
  | i + 1 => do
      let testPath := String.intercalate "/" (baseParts.take (i + 1))
      match alGet ctx.idx.pathToNode testPath with
      | some tp => do
          let te ← getE ctx tp
          if te.tag ≠ "AR-PACKAGE" then
            resolveRefbase ctx baseParts refbaseName i
          else
            match refbaseName with
            | none =>
                match alGet ctx.idx.pkgDefaultRefbase testPath with
                | none => resolveRefbase ctx baseParts refbaseName i
                | some rp => return (some rp)
            | some nm =>
                match alGet ((alGet ctx.idx.pkgRefbases testPath).getD []) nm with
                | none => resolveRefbase ctx baseParts refbaseName i
                | some rp => return (some rp)
      | none =>
          match refbaseName with
          | none =>
              match alGet ctx.idx.pkgDefaultRefbase testPath with
              | none => resolveRefbase ctx baseParts refbaseName i
              | some rp => return (some rp)
          | some nm =>
              match alGet ((alGet ctx.idx.pkgRefbases testPath).getD []) nm with
              | none => resolveRefbase ctx baseParts refbaseName i
              | some rp => return (some rp)

/-- _follow_arxml_reference: resolve an ARXML reference string from a base
node; a relative reference is made absolute through the closest applicable
reference base (no applicable base is fatal); a resolved node of an
unexpected kind yields absence rather than an error. -/
def followArxmlReference (ctx : Ctx) (basePos : Pos)
    (arxmlPath : Option String) (destTagName : Option String)
    (refbaseName : Option String) : Except Err (Option Pos) := do
  let path0 ← match arxmlPath with
              | some p => pure p
              | none => .error .attributeError
  let path ←
    if pyStartsWith path0 "/" then pure path0
    else do
      let basePath ← match alGet ctx.idx.nodeToPath basePos with
                     | some bp => pure bp
                     | none => .error .keyError
      let baseParts := pySplitChar '/' basePath
      let rb ← resolveRefbase ctx baseParts refbaseName baseParts.length
      match rb with
      | none => .error .unknownRefbase
      | some refbasePath => pure (refbasePath ++ "/" ++ path0)
  match alGet ctx.idx.pathToNode path with
  | none => return none
  | some rp =>
      match destTagName with
      | none => return (some rp)
      | some dt => do
          let re ← getE ctx rp
          if re.tag = dt then return (some rp) else return none

/-- The child scan of _get_arxml_children for one base element and one
location atom: a child whose tag equals the atom tag matches directly; a
child tagged atom-REF is resolved through the reference index, and a failed
resolution is a fatal dangling reference. -/
def scanChildren (ctx : Ctx) (basePos : Pos) (tagName : String) :
    List XmlElem → Nat → Except Err (List Pos)
  | [], _ => .ok []
  | c :: rest, i =>
      if c.tag = tagName then do
        let r ← scanChildren ctx basePos tagName rest (i + 1)
        return (basePos ++ [i]) :: r
      else if c.tag = tagName ++ "-REF" then do
        let tmp ← followArxmlReference ctx basePos c.text
          (attrGet c "DEST") (attrGet c "BASE")
        match tmp with
        | none => .error (.danglingReference (c.text.getD "None"))
        | some p => do
            let r ← scanChildren ctx basePos tagName rest (i + 1)
            return p :: r
      else
        scanChildren ctx basePos tagName rest (i + 1)

/-- The per-base-element loop of one atom of _get_arxml_children: a
non-nodeset atom must match at most once per base element. -/
def gacBases (ctx : Ctx) (tagName : String) (isNodeset : Bool) :
    List Pos → Except Err (List Pos)
  | [] => .ok []
  | b :: rest => do
      let be ← getE ctx b
      let localResult ← scanChildren ctx b tagName be.children 0
      if ¬ isNodeset ∧ localResult.length > 1 then
        .error .ambiguousChildren
      else do
        let r ← gacBases ctx tagName isNodeset rest
        return localResult ++ r

/-- _get_arxml_children: navigate an ordered list of tag-path atoms; the &
sigil marks an atom as also satisfiable through an atom-REF child, the *
sigil permits several matches per base element. -/
def getArxmlChildren (ctx : Ctx) : List Pos → List String → Except Err (List Pos)
  | baseElems, [] => .ok baseElems
  | baseElems, loc0 :: locRest =>
      if baseElems.isEmpty then .ok []
      else
        let first2 := loc0.toList.take 2
        let allowRef := first2.contains '&'
        let isNodeset := first2.contains '*'
        let t1 : String := if allowRef then ⟨loc0.toList.drop 1⟩ else loc0
        let tagName : String := if isNodeset then ⟨t1.toList.drop 1⟩ else t1
        do
          let result ← gacBases ctx tagName isNodeset baseElems
          getArxmlChildren ctx result locRest

/-- _get_arxml_children including the Python None check on the base
element. -/
def getArxmlChildrenO (ctx : Ctx) (base : Option Pos) (loc : List String) :
    Except Err (List Pos) :=
  match base with
  | none => .error .nonExistingNode
  | some p => getArxmlChildren ctx [p] loc

/-- _get_unique_arxml_child: like _get_arxml_children but the location must
yield at most one node. -/
def getUniqueArxmlChild (ctx : Ctx) (base : Option Pos) (loc : List String) :
    Except Err (Option Pos) := do
  let tmp ← getArxmlChildrenO ctx base loc
  match tmp with
  | [] => return none
  | [x] => return (some x)
  | _ => .error .nonUniqueChild

/-! ## Value types of the database layer

The Signal, NamedSignalValue and Message classes live outside this module
(fixed external contract, spec sections 3 and 6); they are modelled as plain
records.  The exact decimal mirror of scale/offset/min/max is not modelled
separately: the model computes in exact rationals throughout. -/

/-- A language-tag to text mapping collected from DESC/L-2 children. -/
abbrev Comments := List (String × Option String)

/-- Modelled from the spec: NamedSignalValue (raw value, name, comments) of
the database layer, whose source is not part of this module. -/
structure NamedValue where
  value : Int
  name : Option String
  comments : Option Comments
deriving DecidableEq, Repr

/-- A choices table: raw integer to named value, insertion ordered. -/
abbrev ChoicesT := List (Int × NamedValue)

/-- The possible shapes of a signal initial value after interpretation. -/
inductive InitVal : Type where
  | num (q : ℚ)
  | b (v : Bool)
  | named (nv : NamedValue)
deriving DecidableEq, Repr

/-- Modelled from the spec: the Signal value type of the database layer
(spec section 3); src holds only the ARXML module, so the container is a
plain record with absent optionals, scale 1, offset 0, little-endian byte
order and false flags as defaults. -/
structure CSignal where
  name : Option String := none
  start : Int := 0
  length : Option Int := none
  byteOrder : String := "little_endian"
  isSigned : Bool := false
  isFloat : Bool := false
  scale : ℚ := 1
  offset : ℚ := 0
  minimum : Option ℚ := none
  maximum : Option ℚ := none
  unit : Option String := none
  choices : Option ChoicesT := none
  comments : Option Comments := none
  initial : Option InitVal := none
  multiplexerSignal : Option String := none
  multiplexerIds : Option (List Int) := none
  isMultiplexer : Bool := false
deriving DecidableEq, Repr

/-- Modelled from the spec: the Message value type of the database layer
(spec section 3). -/
structure CMessage where
  frameId : Int
  isExtendedFrame : Bool
  name : Option String
  length : Int
  signals : List CSignal
  cycleTime : Option Int
  comments : Option Comments
deriving DecidableEq, Repr

/-! ## Comment, scaling and signal loading
(_load_comments line 520, ScalingInterpreter lines 754-1009, SignalBuilder
lines 532-752, 1011-1042) -/

/-- _load_comments: language-tag to text mapping from DESC/L-2 children,
absent when empty. -/
def loadComments (ctx : Ctx) (node : Pos) : Except Err (Option Comments) := do
  let l2s ← getArxmlChildren ctx [node] ["DESC", "*L-2"]
  let result ← l2s.foldlM (fun (acc : Comments) p => do
      let e ← getE ctx p
      let lang := (attrGet e "L").getD "EN"
      return dictSet acc lang e.text) []
  if result.isEmpty then return none else return (some result)

/-- _load_system_signal_unit: display name from the physical properties,
falling back to the compu-method unit; the literal NoUnit means no unit. -/
def loadSystemSignalUnit (ctx : Ctx) (systemSignal : Pos)
    (compuMethod : Option Pos) : Except Err (Option String) := do
  let res ← getUniqueArxmlChild ctx (some systemSignal)
      ["PHYSICAL-PROPS", "SW-DATA-DEF-PROPS-VARIANTS",
       "&SW-DATA-DEF-PROPS-CONDITIONAL", "&UNIT", "DISPLAY-NAME"]
  let res2 ←
    match res, compuMethod with
    | none, some cm => getUniqueArxmlChild ctx (some cm) ["&UNIT", "DISPLAY-NAME"]
    | r, _ => pure r
  match res2 with
  | none => return none
  | some p => do
      let t ← textAt ctx p
      match t with
      | some txt => if txt = "NoUnit" then return none else return (some txt)
      | none => return none

/-- One scale limit read as a number: float text for float signals,
parse_int_string otherwise (the text_to_num_fn of _load_texttable). -/
def limitNum (ctx : Ctx) (isFloat : Bool) (limit : Option Pos) :
    Except Err (Option ℚ) :=
  match limit with
  | none => pure none
  | some ll => do
      let t ← textAt ctx ll
      if isFloat then
        match t with
        | some s => (ofOpt (pyNumQ s)).map some
        | none => .error .typeError
      else
        (parse_int_string t).map (fun i => some (i : ℚ))

/-- _load_texttable: each scale narrows the running min/max; a scale with a
named constant contributes a choices entry keyed by its lower limit. -/
def loadTexttable (ctx : Ctx) (compuMethod : Pos) (isFloat : Bool) :
    Except Err (Option ℚ × Option ℚ × ChoicesT) := do
  let scales ← getArxmlChildren ctx [compuMethod]
      ["&COMPU-INTERNAL-TO-PHYS", "COMPU-SCALES", "*&COMPU-SCALE"]
  scales.foldlM (fun (st : Option ℚ × Option ℚ × ChoicesT) p => do
      let (minimum, maximum, choices) := st
      let lowerLimit ← getUniqueArxmlChild ctx (some p) ["LOWER-LIMIT"]
      let upperLimit ← getUniqueArxmlChild ctx (some p) ["UPPER-LIMIT"]
      let vt ← getUniqueArxmlChild ctx (some p) ["&COMPU-CONST", "VT"]
      let comments ← loadComments ctx p
      let minIntScale ← limitNum ctx isFloat lowerLimit
      let maxIntScale ← limitNum ctx isFloat upperLimit
      let minimum := match minimum, minIntScale with
                     | none, v => v
                     | some m, none => some m
                     | some m, some v => some (min m v)
      let maximum := match maximum, maxIntScale with
                     | none, v => v
                     | some m, none => some m
                     | some m, some v => some (max m v)
      match vt with
      | none => return (minimum, maximum, choices)
      | some vtp => do
          let lt ← textOf ctx lowerLimit
          let value ← parse_int_string lt
          let nm ← textAt ctx vtp
          return (minimum, maximum, dictSet choices value ⟨value, nm, comments⟩))
    (none, none, [])

/-- _load_linear_factor_and_offset: exact rational scale and offset from
COMPU-RATIONAL-COEFFS (two numerator values, one denominator value), absent
without coefficients. -/
def loadLinearFactorAndOffset (ctx : Ctx) (compuScale : Pos) :
    Except Err (Option (ℚ × ℚ)) := do
  let coeffs ← getUniqueArxmlChild ctx (some compuScale)
      ["&COMPU-RATIONAL-COEFFS"]
  match coeffs with
  | none => return none
  | some cf => do
      let numerators ← getArxmlChildren ctx [cf] ["&COMPU-NUMERATOR", "*&V"]
      let _ ← if numerators.length ≠ 2 then .error Err.valueError
              else pure ()
      let denominators ← getArxmlChildren ctx [cf] ["&COMPU-DENOMINATOR", "*&V"]
      let _ ← if denominators.length ≠ 1 then .error Err.valueError
              else pure ()
      match numerators, denominators with
      | [n0, n1], [d0] => do
          let dt ← textAt ctx d0
          let den ← match dt with
                    | some s => ofOpt (pyNumQ s)
                    | none => .error Err.typeError
          let n1t ← textAt ctx n1
          let sc ← match n1t with
                   | some s => ofOpt (pyNumQ s)
                   | none => .error Err.typeError
          let _ ← if den = 0 then .error Err.valueError else pure ()
          let n0t ← textAt ctx n0
          let off ← match n0t with
                    | some s => ofOpt (pyNumQ s)
                    | none => .error Err.typeError
          return some (sc / den, off / den)
      | _, _ => .error .internalPos

/-- _load_linear: one scale with its internal bounds projected through the
factor/offset pair. -/
def loadLinear (ctx : Ctx) (compuMethod : Pos) :
    Except Err (Option ℚ × Option ℚ × ℚ × ℚ) := do
  let compuScale ← getUniqueArxmlChild ctx (some compuMethod)
      ["COMPU-INTERNAL-TO-PHYS", "COMPU-SCALES", "&COMPU-SCALE"]
  let lowerLimit ← getUniqueArxmlChild ctx compuScale ["&LOWER-LIMIT"]
  let upperLimit ← getUniqueArxmlChild ctx compuScale ["&UPPER-LIMIT"]
  let minimumInt ← match lowerLimit with
                   | none => pure (none : Option Int)
                   | some ll => do
                       let t ← textAt ctx ll
                       (parse_int_string t).map some
  let maximumInt ← match upperLimit with
                   | none => pure (none : Option Int)
                   | some ul => do
                       let t ← textAt ctx ul
                       (parse_int_string t).map some
  let fo ← match compuScale with
           | none => .error Err.nonExistingNode
           | some cs => loadLinearFactorAndOffset ctx cs
  let factor := (fo.map Prod.fst).getD 1
  let offset := (fo.map Prod.snd).getD 0
  return (minimumInt.map (fun m => (m : ℚ) * factor + offset),
          maximumInt.map (fun m => (m : ℚ) * factor + offset),
          factor, offset)

/-- The per-scale lookups of one iteration of
_load_scale_linear_and_texttable, in source order. -/
structure ScaleData where
  minIntScale : Option Int
  maxIntScale : Option Int
  coeffs : Option (ℚ × ℚ)
  vtName : Option (Option String)
  comments : Option Comments
deriving DecidableEq, Repr

/-- Lookups of one COMPU-SCALE in _load_scale_linear_and_texttable. -/
def scaleDataOf (ctx : Ctx) (compuScale : Pos) : Except Err ScaleData := do
  let lowerLimit ← getUniqueArxmlChild ctx (some compuScale) ["LOWER-LIMIT"]
  let upperLimit ← getUniqueArxmlChild ctx (some compuScale) ["UPPER-LIMIT"]
  let vt ← getUniqueArxmlChild ctx (some compuScale) ["&COMPU-CONST", "VT"]
  let comments ← loadComments ctx compuScale
  let minIntScale ← match lowerLimit with
                    | none => pure (none : Option Int)
                    | some ll => do
                        let t ← textAt ctx ll
                        (parse_int_string t).map some
  let maxIntScale ← match upperLimit with
                    | none => pure (none : Option Int)
                    | some ul => do
                        let t ← textAt ctx ul
                        (parse_int_string t).map some
  let coeffs ← loadLinearFactorAndOffset ctx compuScale
  let vtName ← match vt with
               | none => pure (none : Option (Option String))
               | some v => (textAt ctx v).map some
  return ⟨minIntScale, maxIntScale, coeffs, vtName, comments⟩

/-- The running state of _load_scale_linear_and_texttable. -/
abbrev SltState := Option ℚ × Option ℚ × ℚ × ℚ × ChoicesT

/-- The state update of one iteration of _load_scale_linear_and_texttable:
a present coefficient pair overwrites the running factor/offset (last one
wins); the scaled limits narrow the running min/max (an absent first limit
is a TypeError); a named constant must be a single point and becomes a
choices entry. -/
def sltStep (st : SltState) (sd : ScaleData) : Except Err SltState := do
  let (minimum, maximum, factor, offset, choices) := st
  let factor := match sd.coeffs with
                | some fo => fo.1
                | none => factor
  let offset := match sd.coeffs with
                | some fo => fo.2
                | none => offset
  let factorScale : ℚ := match sd.coeffs with
                         | some fo => fo.1
                         | none => 1
  let offsetScale : ℚ := match sd.coeffs with
                         | some fo => fo.2
                         | none => 0
  let minimum ← match minimum, sd.minIntScale with
                | none, none => Except.error Err.typeError
                | none, some m => pure (some ((m : ℚ) * factorScale + offsetScale))
                | some cur, none => pure (some cur)
                | some cur, some m =>
                    pure (some (min cur ((m : ℚ) * factorScale + offsetScale)))
  let maximum ← match maximum, sd.maxIntScale with
                | none, none => Except.error Err.typeError
                | none, some m => pure (some ((m : ℚ) * factorScale + offsetScale))
                | some cur, none => pure (some cur)
                | some cur, some m =>
                    pure (some (max cur ((m : ℚ) * factorScale + offsetScale)))
  match sd.vtName with
  | none => return (minimum, maximum, factor, offset, choices)
  | some nm =>
      match sd.minIntScale, sd.maxIntScale with
      | some v, some v2 =>
          if v = v2 then
            return (minimum, maximum, factor, offset,
              dictSet choices v ⟨v, nm, sd.comments⟩)
          else .error .assertionError
      | _, _ => .error .assertionError

/-- One iteration of the loop of _load_scale_linear_and_texttable:
lookups, then the pure state update. -/
def sltBody (ctx : Ctx) (st : SltState) (p : Pos) : Except Err SltState := do
  let sd ← scaleDataOf ctx p
  sltStep st sd

/-- _load_scale_linear_and_texttable (lines 885-952). -/
def load_scale_linear_and_texttable (ctx : Ctx) (compuMethod : Pos) :
    Except Err (Option ℚ × Option ℚ × ℚ × ℚ × ChoicesT) := do
  let scales ← getArxmlChildren ctx [compuMethod]
      ["&COMPU-INTERNAL-TO-PHYS", "COMPU-SCALES", "*&COMPU-SCALE"]
  let (mn, mx, f, o, ch) ← scales.foldlM (sltBody ctx) ((none, none, 1, 0, []) : SltState)
  match mn, mx with
  | some _, some _ => return (mn, mx, f, o, ch)
  | _, _ => .error .typeError

/-- _get_compu_method (lines 1347-1362). -/
def getCompuMethod (ctx : Ctx) (systemSignal : Pos) : Except Err (Option Pos) :=
  if ctx.newer 4 then
    getUniqueArxmlChild ctx (some systemSignal)
      ["&PHYSICAL-PROPS", "SW-DATA-DEF-PROPS-VARIANTS",
       "&SW-DATA-DEF-PROPS-CONDITIONAL", "&COMPU-METHOD"]
  else
    getUniqueArxmlChild ctx (some systemSignal)
      ["&DATA-TYPE", "SW-DATA-DEF-PROPS", "&COMPU-METHOD"]

/-- _load_system_signal: dispatch on the COMPU-METHOD category; an unknown
or absent category degrades to identity scaling. -/
def loadSystemSignal (ctx : Ctx) (systemSignal : Pos) (isFloat : Bool) :
    Except Err (Option ℚ × Option ℚ × ℚ × ℚ × Option ChoicesT ×
                Option String × Option Comments) := do
  let compuMethod ← getCompuMethod ctx systemSignal
  let unit ← loadSystemSignalUnit ctx systemSignal compuMethod
  let comments ← loadComments ctx systemSignal
  match compuMethod with
  | none => return (none, none, 1, 0, none, unit, comments)
  | some cm => do
      let category ← getUniqueArxmlChild ctx (some cm) ["CATEGORY"]
      match category with
      | none => return (none, none, 1, 0, none, unit, comments)
      | some cat => do
          let catText ← textAt ctx cat
          if catText = some "TEXTTABLE" then do
            let (mn, mx, ch) ← loadTexttable ctx cm isFloat
            return (mn, mx, 1, 0, some ch, unit, comments)
          else if catText = some "LINEAR" then do
            let (mn, mx, f, o) ← loadLinear ctx cm
            return (mn, mx, f, o, none, unit, comments)
          else if catText = some "SCALE_LINEAR_AND_TEXTTABLE" then do
            let (mn, mx, f, o, ch) ← load_scale_linear_and_texttable ctx cm
            return (mn, mx, f, o, some ch, unit, comments)
          else
            return (none, none, 1, 0, none, unit, comments)

/-- _get_sw_base_type (lines 1364-1371). -/
def getSwBaseType (ctx : Ctx) (iSignal : Option Pos) : Except Err (Option Pos) :=
  getUniqueArxmlChild ctx iSignal
    ["&NETWORK-REPRESENTATION-PROPS", "SW-DATA-DEF-PROPS-VARIANTS",
     "&SW-DATA-DEF-PROPS-CONDITIONAL", "&BASE-TYPE"]

/-- _load_signal_type: signedness and floatness from the base type
encoding; a base type without an encoding is fatal. -/
def loadSignalType (ctx : Ctx) (iSignal : Option Pos) :
    Except Err (Bool × Bool) := do
  let baseType ← getSwBaseType ctx iSignal
  match baseType with
  | none => return (false, false)
  | some bt => do
      let enc ← getUniqueArxmlChild ctx (some bt) ["&BASE-TYPE-ENCODING"]
      match enc with
      | none => .error .valueError
      | some e => do
          let t ← textAt ctx e
          if t = some "2C" ∨ t = some "1C" ∨ t = some "SM" then
            return (true, false)
          else if t = some "IEEE754" then return (false, true)
          else return (false, false)

/-- _load_signal_byte_order (lines 743-752). -/
def loadSignalByteOrder (ctx : Ctx) (mapping : Pos) : Except Err String := do
  let pbo ← getUniqueArxmlChild ctx (some mapping) ["PACKING-BYTE-ORDER"]
  match pbo with
  | none => return "little_endian"
  | some p => do
      let t ← textAt ctx p
      if t = some "MOST-SIGNIFICANT-BYTE-FIRST" then return "big_endian"
      else return "little_endian"

/-- _load_signal_name (lines 629-631). -/
def loadSignalName (ctx : Ctx) (iSignal : Option Pos) :
    Except Err (Option String) := do
  let sn ← getUniqueArxmlChild ctx iSignal ["SHORT-NAME"]
  textOf ctx sn

/-- _load_signal_start_position (lines 633-636). -/
def loadSignalStartPosition (ctx : Ctx) (mapping : Pos) : Except Err Int := do
  let p ← getUniqueArxmlChild ctx (some mapping) ["START-POSITION"]
  let t ← textOf ctx p
  parse_int_string t

/-- _load_signal_length: length from the I-SIGNAL, with the AUTOSAR 3
fallback to the system signal. -/
def loadSignalLength (ctx : Ctx) (iSignal : Option Pos)
    (systemSignal : Option Pos) : Except Err (Option Int) := do
  let l ← getUniqueArxmlChild ctx iSignal ["LENGTH"]
  match l with
  | some ll => do
      let t ← textAt ctx ll
      (parse_int_string t).map some
  | none =>
      if ¬ ctx.newer 4 then
        match systemSignal with
        | some ss => do
            let sl ← getUniqueArxmlChild ctx (some ss) ["LENGTH"]
            match sl with
            | some sll => do
                let t ← textAt ctx sll
                (parse_int_string t).map some
            | none => return none
        | none => return none
      else return none

/-- _load_arxml_init_value_string_helper: the direct numeric literal, the
v4 named-constant indirection, or the v3 INIT-VALUE-REF indirection (a v3
dangling reference yields absence). -/
def loadArxmlInitValueStringHelper (ctx : Ctx) (signalElem : Pos) :
    Except Err (Option String) := do
  if ctx.newer 4 then do
    let v1 ← getUniqueArxmlChild ctx (some signalElem)
        ["INIT-VALUE", "NUMERICAL-VALUE-SPECIFICATION", "VALUE"]
    match v1 with
    | some p => textAt ctx p
    | none => do
        let v2 ← getUniqueArxmlChild ctx (some signalElem)
            ["INIT-VALUE", "CONSTANT-REFERENCE", "&CONSTANT", "VALUE-SPEC",
             "NUMERICAL-VALUE-SPECIFICATION", "VALUE"]
        match v2 with
        | some p => textAt ctx p
        | none => return none
  else do
    let se ← getE ctx signalElem
    match findChild se "INIT-VALUE-REF" with
    | none => return none
    | some refElem => do
        let litSpec ← followArxmlReference ctx signalElem refElem.text
            (attrGet refElem "DEST") (attrGet refElem "BASE")
        match litSpec with
        | none => return none
        | some ls => do
            let lse ← getE ctx ls
            match findChild lse "VALUE" with
            | none => return none
            | some lv => return lv.text

/-- _load_arxml_init_value_string: v4 reads from the I-SIGNAL, v3 from the
SYSTEM-SIGNAL. -/
def loadArxmlInitValueString (ctx : Ctx) (iSignal : Option Pos)
    (systemSignal : Option Pos) : Except Err (Option String) :=
  if ctx.newer 4 then
    match iSignal with
    | none => pure none
    | some p => loadArxmlInitValueStringHelper ctx p
  else
    match systemSignal with
    | none => pure none
    | some p => loadArxmlInitValueStringHelper ctx p

/-- _get_i_signal (lines 1331-1337). -/
def getISignal (ctx : Ctx) (mapping : Pos) : Except Err (Option Pos) :=
  if ctx.newer 4 then getUniqueArxmlChild ctx (some mapping) ["&I-SIGNAL"]
  else getUniqueArxmlChild ctx (some mapping) ["&SIGNAL"]

/-- Interpretation of the raw initial-value string of _load_signal: a
matching choice key substitutes the named value; a float signal parses and
scales; the case-insensitive true/false become booleans; anything else is
an auto-base integer, scaled. -/
def interpInitial (choices : Option ChoicesT) (isFloat : Bool)
    (factor offset : ℚ) (istr : String) : Except Err InitVal := do
  let initialInt : Option Int :=
    match parse_int_string (some istr) with
    | .ok v => some v
    | .error _ => none
  let inChoices : Option NamedValue :=
    match choices, initialInt with
    | some ch, some ii => alGet ch ii
    | _, _ => none
  match inChoices with
  | some nv => return (.named nv)
  | none =>
      if isFloat then
        match pyNumQ istr with
        | some q => return (.num (q * factor + offset))
        | none => .error .valueError
      else if pyLower (pyStrip istr) = "true" then return (.b true)
      else if pyLower (pyStrip istr) = "false" then return (.b false)
      else
        match initialInt with
        | some ii => return (.num ((ii : ℚ) * factor + offset))
        | none => .error .typeError

/-- _load_signal (lines 532-627): build one signal from its
i-signal-to-i-pdu mapping; a signal-group mapping yields no signal. -/
def loadSignal (ctx : Ctx) (mapping : Pos) : Except Err (Option CSignal) := do
  let iSignal0 ← getISignal ctx mapping
  match iSignal0 with
  | none => return none
  | some isig0 => do
      let systemSignal ← getUniqueArxmlChild ctx (some isig0) ["&SYSTEM-SIGNAL"]
      let groupSkip ← match systemSignal with
                      | none => pure false
                      | some ss => do
                          let se ← getE ctx ss
                          pure (se.tag != "SYSTEM-SIGNAL")
      if groupSkip then return none
      else do
        let iSignal ← getISignal ctx mapping
        let name ← loadSignalName ctx iSignal
        let startPosition ← loadSignalStartPosition ctx mapping
        let length ← loadSignalLength ctx iSignal systemSignal
        let byteOrder ← loadSignalByteOrder ctx mapping
        let (isSigned, isFloat) ← loadSignalType ctx iSignal
        let (minimum, maximum, factor, offset, choices, unit, comments) ←
          match systemSignal with
          | some ss => loadSystemSignal ctx ss isFloat
          | none =>
              pure (none, none, (1 : ℚ), (0 : ℚ),
                (none : Option ChoicesT), (none : Option String),
                (none : Option Comments))
        let initialStr ← loadArxmlInitValueString ctx iSignal systemSignal
        let initial ← match initialStr with
                      | none => pure (none : Option InitVal)
                      | some istr =>
                          (interpInitial choices isFloat factor offset istr).map
                            some
        return some
          { name := name
            start := startPosition
            length := length
            byteOrder := byteOrder
            isSigned := isSigned
            isFloat := isFloat
            scale := factor
            offset := offset
            minimum := minimum
            maximum := maximum
            unit := unit
            choices := choices
            comments := comments
            initial := initial }

/-! ## The PDU decomposer (_load_pdu lines 287-333,
_load_pdu_multiplexed_parts lines 335-453, _load_pdu_signals lines
455-496) -/

/-- The result tuple of _load_pdu: updated selector-index counter, bit
length, signals, cycle time. -/
structure PduResult where
  nextIdx : Int
  bitLength : Option Int
  signals : List CSignal
  cycleTime : Option Int
deriving DecidableEq, Repr

/-- _load_pdu_signals: collect the signals of the ordinary mappings of a
PDU (mappings that turn out to be signal groups are dropped). -/
def loadPduSignals (ctx : Ctx) (pdu : Option Pos) :
    Except Err (List CSignal) := do
  let m1 ←
    if ctx.newer 4 then
      getArxmlChildrenO ctx pdu
        ["I-SIGNAL-TO-PDU-MAPPINGS", "*&I-SIGNAL-TO-I-PDU-MAPPING"]
    else
      getArxmlChildrenO ctx pdu
        ["SIGNAL-TO-PDU-MAPPINGS", "*&I-SIGNAL-TO-I-PDU-MAPPING"]
  let m2 ← getArxmlChildrenO ctx pdu
      ["I-SIGNAL-TO-I-PDU-MAPPINGS", "*&I-SIGNAL-TO-I-PDU-MAPPING"]
  (m1 ++ m2).foldlM (fun acc mp => do
      let s ← loadSignal ctx mp
      match s with
      | some sg => pure (acc ++ [sg])
      | none => pure acc) []

/-- The selector-field lookups of _load_pdu_multiplexed_parts (lines
336-353): position, length and byte order of the synthesized selector. -/
def muxSelectorFields (ctx : Ctx) (pdu : Pos) :
    Except Err (Int × Int × String) := do
  let sp ← getUniqueArxmlChild ctx (some pdu) ["SELECTOR-FIELD-START-POSITION"]
  let spT ← textOf ctx sp
  let selectorPos ← parse_int_string spT
  let sl ← getUniqueArxmlChild ctx (some pdu) ["SELECTOR-FIELD-LENGTH"]
  let slT ← textOf ctx sl
  let selectorLen ← parse_int_string slT
  let bo ← getUniqueArxmlChild ctx (some pdu) ["SELECTOR-FIELD-BYTE-ORDER"]
  let byteOrder ← match bo with
                  | some b => do
                      let t ← textAt ctx b
                      if t = some "MOST-SIGNIFICANT-BYTE-FIRST" then
                        pure "big_endian"
                      else if t = some "MOST-SIGNIFICANT-BYTE-LAST" then
                        pure "little_endian"
                      else Except.error Err.assertionError
                  | none => pure "little_endian"
  return (selectorPos, selectorLen, byteOrder)

/-- The version-specific dynamic-part location (lines 367-379). -/
def dynpartSpec (ctx : Ctx) : List String :=
  if ctx.newer 4 then
    ["DYNAMIC-PARTS", "*DYNAMIC-PART", "DYNAMIC-PART-ALTERNATIVES",
     "*DYNAMIC-PART-ALTERNATIVE"]
  else
    ["DYNAMIC-PART", "DYNAMIC-PART-ALTERNATIVES", "*DYNAMIC-PART-ALTERNATIVE"]

/-- The version-specific static-part location (lines 432-442). -/
def staticPduSpec (ctx : Ctx) : List String :=
  if ctx.newer 4 then ["STATIC-PARTS", "*STATIC-PART", "&I-PDU"]
  else ["STATIC-PART", "&I-PDU"]

/-- The data read for one DYNAMIC-PART-ALTERNATIVE: its selector code, the
counter and signals returned by the recursive _load_pdu of its nested PDU,
and its initial flag. -/
structure DynaltData where
  selValue : Int
  nextIdx : Int
  signals : List CSignal
  isInitial : Bool
deriving DecidableEq, Repr

/-- The state update of one dynamic alternative (lines 399-426): record an
initial flag on the selector (a second flag trips an assertion); exactly one
duplicated selector copy must sit at the selector position with the selector
length; its choices merge into the selector table and the copy is removed;
remaining unclaimed signals are claimed for this selector with the
alternative selector code. -/
def muxStep (selectorPos selectorLen : Int) (st : CSignal × List CSignal)
    (dd : DynaltData) : Except Err (CSignal × List CSignal) := do
  let (sel, acc) := st
  let sel ←
    if dd.isInitial then
      if sel.initial = none then
        pure { sel with initial := some (.num (dd.selValue : ℚ)) }
      else Except.error Err.assertionError
    else pure sel
  let dups := dd.signals.filter (fun x => x.start == selectorPos)
  match dups with
  | [dup] => do
      let _ ← if dup.length ≠ some selectorLen then Except.error Err.assertionError
              else pure ()
      let sel := match dup.choices with
                 | some dch =>
                     { sel with choices := some (dictUpd (sel.choices.getD []) dch) }
                 | none => sel
      let remaining := dd.signals.erase dup
      let claimed := remaining.map (fun s =>
          if s.multiplexerSignal = none then
            { s with multiplexerSignal := sel.name,
                     multiplexerIds := some [dd.selValue] }
          else s)
      return (sel, acc ++ claimed)
  | _ => .error .assertionError

mutual

/-- _load_pdu: bit length, cycle time, ordinary signals, and the
multiplexed parts of a MULTIPLEXED-I-PDU.  The returned counter is the
value the source returns (its input, unchanged). -/
def loadPdu : Nat → Ctx → Option Pos → Option String → Int →
    Except Err PduResult
  | 0, _, _, _, _ => .error .outOfFuel
  | n + 1, ctx, pdu, frameName, nextSelectorIdx => do
      let bl ← getUniqueArxmlChild ctx pdu ["LENGTH"]
      let bitLength ← match bl with
                      | none => pure (none : Option Int)
                      | some p => do
                          let t ← textAt ctx p
                          (parse_int_string t).map some
      let timePeriodLoc :=
        if ctx.newer 4 then
          ["I-PDU-TIMING-SPECIFICATIONS", "I-PDU-TIMING",
           "TRANSMISSION-MODE-DECLARATION", "TRANSMISSION-MODE-TRUE-TIMING",
           "CYCLIC-TIMING", "TIME-PERIOD", "VALUE"]
        else
          ["I-PDU-TIMING-SPECIFICATION", "CYCLIC-TIMING", "REPEATING-TIME",
           "VALUE"]
      let tp ← getUniqueArxmlChild ctx pdu timePeriodLoc
      let cycleTime ← match tp with
                      | none => pure (none : Option Int)
                      | some p => do
                          let t ← textAt ctx p
                          match t with
                          | some s =>
                              match pyNumQ s with
                              | some q => pure (some (pyTruncQ (q * 1000)))
                              | none => Except.error Err.valueError
                          | none => Except.error Err.typeError
      let signals ← loadPduSignals ctx pdu
      let muxSignals ←
        match pdu with
        | none => Except.error Err.nonExistingNode
        | some p => do
            let pe ← getE ctx p
            if pe.tag = "MULTIPLEXED-I-PDU" then
              loadPduMultiplexedParts n ctx p frameName nextSelectorIdx
            else pure []
      return ⟨nextSelectorIdx, bitLength, signals ++ muxSignals, cycleTime⟩

/-- The lookups and recursion of one DYNAMIC-PART-ALTERNATIVE (lines
381-398), in source order. -/
def dynaltData : Nat → Ctx → Pos → Option String → Int → Except Err DynaltData
  | 0, _, _, _, _ => .error .outOfFuel
  | n + 1, ctx, dynalt, frameName, nextIdx => do
      let sv ← getUniqueArxmlChild ctx (some dynalt) ["SELECTOR-FIELD-CODE"]
      let svT ← textOf ctx sv
      let selValue ← parse_int_string svT
      let dynaltPdu ← getUniqueArxmlChild ctx (some dynalt) ["&I-PDU"]
      let r ← loadPdu n ctx dynaltPdu frameName nextIdx
      let ii ← getUniqueArxmlChild ctx (some dynalt) ["INITIAL-DYNAMIC-PART"]
      let isInitial ← match ii with
                      | none => pure false
                      | some p => do
                          let t ← textAt ctx p
                          pure (t == some "true")
      return ⟨selValue, r.nextIdx, r.signals, isInitial⟩

/-- The dynamic-alternative loop of _load_pdu_multiplexed_parts, threading
the counter, the selector signal and the accumulated signals. -/
def muxDynLoop : Nat → Ctx → Option String → Int → Int → List Pos →
    Int × CSignal × List CSignal → Except Err (Int × CSignal × List CSignal)
  | 0, _, _, _, _, _, _ => .error .outOfFuel
  | _ + 1, _, _, _, _, [], st => .ok st
  | n + 1, ctx, frameName, selPos, selLen, d :: rest, (nextIdx, sel, acc) => do
      let dd ← dynaltData n ctx d frameName nextIdx
      let r ← muxStep selPos selLen (sel, acc) dd
      muxDynLoop n ctx frameName selPos selLen rest (dd.nextIdx, r.1, r.2)

/-- The static-part loop of _load_pdu_multiplexed_parts (lines 444-451). -/
def muxStaticLoop : Nat → Ctx → Option String → List Pos →
    Int × List CSignal → Except Err (Int × List CSignal)
  | 0, _, _, _, _ => .error .outOfFuel
  | _ + 1, _, _, [], st => .ok st
  | n + 1, ctx, frameName, p :: rest, (nextIdx, acc) => do
      let r ← loadPdu n ctx (some p) frameName nextIdx
      muxStaticLoop n ctx frameName rest (r.nextIdx, acc ++ r.signals)

/-- _load_pdu_multiplexed_parts: synthesize the selector signal, fold the
dynamic alternatives into it, append the static parts.  Only the signal
list is returned; the incremented selector-index counter is dropped here,
exactly as in the source. -/
def loadPduMultiplexedParts : Nat → Ctx → Pos → Option String → Int →
    Except Err (List CSignal)
  | 0, _, _, _, _ => .error .outOfFuel
  | n + 1, ctx, pdu, frameName, nextSelectorIdx => do
      let (selPos, selLen, selBO) ← muxSelectorFields ctx pdu
      let selector : CSignal :=
        { name := some ((frameName.getD "None") ++ "_selector" ++
                        toString nextSelectorIdx)
          start := selPos
          length := some selLen
          byteOrder := selBO
          choices := some []
          isMultiplexer := true }
      let dynalts ← getArxmlChildren ctx [pdu] (dynpartSpec ctx)
      let r1 ← muxDynLoop n ctx frameName selPos selLen dynalts
        (nextSelectorIdx + 1, selector, [])
      let statics ← getArxmlChildren ctx [pdu] (staticPduSpec ctx)
      let r2 ← muxStaticLoop n ctx frameName statics (r1.1, [])
      return r1.2.1 :: (r1.2.2 ++ r2.2)

end

/-! ## Message extraction and the package walk (SystemLoader.load lines
155-197, _load_package_contents lines 199-240, _load_message lines
242-284) -/

/-- _get_can_frame. -/
def getCanFrame (ctx : Ctx) (trig : Pos) : Except Err (Option Pos) :=
  getUniqueArxmlChild ctx (some trig) ["&FRAME"]

/-- _get_pdu: the single PDU mapped to a frame. -/
def getPdu (ctx : Ctx) (canFrame : Option Pos) : Except Err (Option Pos) :=
  getUniqueArxmlChild ctx canFrame
    ["PDU-TO-FRAME-MAPPINGS", "&PDU-TO-FRAME-MAPPING", "&PDU"]

/-- _load_message_name. -/
def loadMessageName (ctx : Ctx) (canFrame : Option Pos) :
    Except Err (Option String) := do
  let sn ← getUniqueArxmlChild ctx canFrame ["SHORT-NAME"]
  textOf ctx sn

/-- _load_message_frame_id. -/
def loadMessageFrameId (ctx : Ctx) (trig : Pos) : Except Err Int := do
  let idElem ← getUniqueArxmlChild ctx (some trig) ["IDENTIFIER"]
  let t ← textOf ctx idElem
  parse_int_string t

/-- _load_message_length. -/
def loadMessageLength (ctx : Ctx) (canFrame : Option Pos) : Except Err Int := do
  let l ← getUniqueArxmlChild ctx canFrame ["FRAME-LENGTH"]
  let t ← textOf ctx l
  parse_int_string t

/-- _load_message_is_extended_frame: EXTENDED addressing marks an extended
frame, absence a standard one. -/
def loadMessageIsExtended (ctx : Ctx) (trig : Pos) : Except Err Bool := do
  let am ← getUniqueArxmlChild ctx (some trig) ["CAN-ADDRESSING-MODE"]
  match am with
  | none => return false
  | some p => do
      let t ← textAt ctx p
      return (t == some "EXTENDED")

/-- _load_message: one CAN frame triggering into a message; the frame must
map exactly one PDU. -/
def loadMessageS (fuel : Nat) (ctx : Ctx) (trig : Pos) : Except Err CMessage := do
  let canFrame ← getCanFrame ctx trig
  let name ← loadMessageName ctx canFrame
  let frameId ← loadMessageFrameId ctx trig
  let length ← loadMessageLength ctx canFrame
  let isExtended ← loadMessageIsExtended ctx trig
  let comments ← match canFrame with
                 | none => Except.error Err.nonExistingNode
                 | some cf => loadComments ctx cf
  let pdu ← getPdu ctx canFrame
  let _ ← if pdu = none then Except.error Err.assertionError else pure ()
  let r ← loadPdu fuel ctx pdu name 1
  return ⟨frameId, isExtended, name, length, r.signals, r.cycleTime, comments⟩

/-- The version-specific frame-triggering location of
_load_package_contents, including the literal trailing S of the AUTOSAR 3
schema (lines 206-234). -/
def frameTriggeringsSpec (ctx : Ctx) : List String :=
  if ctx.newer 4 then
    ["ELEMENTS", "*&CAN-CLUSTER", "CAN-CLUSTER-VARIANTS",
     "*&CAN-CLUSTER-CONDITIONAL", "PHYSICAL-CHANNELS",
     "*&CAN-PHYSICAL-CHANNEL", "FRAME-TRIGGERINGS", "*&CAN-FRAME-TRIGGERING"]
  else
    ["ELEMENTS", "*&CAN-CLUSTER", "PHYSICAL-CHANNELS", "*&PHYSICAL-CHANNEL",
     "FRAME-TRIGGERINGSS", "*&CAN-FRAME-TRIGGERING"]

/-- The message loop of _load_package_contents: the messages of every
located frame triggering, appended in order. -/
def loadMessagesLoop (fuel : Nat) (ctx : Ctx) :
    List Pos → List CMessage → Except Err (List CMessage)
  | [], msgs => .ok msgs
  | t :: rest, msgs => do
      let m ← loadMessageS fuel ctx t
      loadMessagesLoop fuel ctx rest (msgs ++ [m])

/-- _load_package_contents: locate the frame triggerings of one package and
load each one. -/
def loadPackageContents (fuel : Nat) (ctx : Ctx) (pkg : Pos)
    (msgs : List CMessage) : Except Err (List CMessage) := do
  let trigs ← getArxmlChildren ctx [pkg] (frameTriggeringsSpec ctx)
  loadMessagesLoop fuel ctx trigs msgs

mutual

/-- handle_package_list of SystemLoader.load: process every AR-PACKAGE
child of a package-list node, then its sub-package list. -/
def handlePackageList : Nat → Ctx → Pos → List CMessage →
    Except Err (List CMessage)
  | 0, _, _, _ => .error .outOfFuel
  | n + 1, ctx, pl, msgs => do
      let ple ← getE ctx pl
      handlePackagesLoop n ctx pl ple.children 0 msgs

/-- The package loop of handle_package_list. -/
def handlePackagesLoop : Nat → Ctx → Pos → List XmlElem → Nat →
    List CMessage → Except Err (List CMessage)
  | 0, _, _, _, _, _ => .error .outOfFuel
  | _ + 1, _, _, [], _, msgs => .ok msgs
  | n + 1, ctx, pl, c :: rest, i, msgs =>
      if c.tag = "AR-PACKAGE" then do
        let msgs1 ← loadPackageContents n ctx (pl ++ [i]) msgs
        let subTag := if ctx.newer 4 then "AR-PACKAGES" else "SUB-PACKAGES"
        let msgs2 ←
          match c.children.findIdx? (fun s => s.tag = subTag) with
          | some j => handlePackageList n ctx (pl ++ [i, j]) msgs1
          | none => pure msgs1
        handlePackagesLoop n ctx pl rest (i + 1) msgs2
      else
        handlePackagesLoop n ctx pl rest (i + 1) msgs

end

/-- SystemLoader.load: recursively extract the messages of all packages of
the document; the returned database is the message list. -/
def loadS (fuel : Nat) (ctx : Ctx) : Except Err (List CMessage) := do
  let root ← getE ctx []
  let topTag := if ctx.newer 4 then "AR-PACKAGES" else "TOP-LEVEL-PACKAGES"
  match root.children.findIdx? (fun c => c.tag = topTag) with
  | none => .error .attributeError
  | some j => handlePackageList fuel ctx [j] []

/-- SystemLoader construction: version detection from the XML namespace
followed by the index build. -/
def mkSystemLoader (fuel : Nat) (xmlNamespace : String) (root : XmlElem) :
    Except Err Ctx := do
  let v ← detectArVersion xmlNamespace
  let idx ← buildIndex fuel root
  return ⟨root, idx, v.1, v.2.1, v.2.2⟩

/-! ## EcuExtractLoader (lines 1373-1728)

The ECU-extract pipeline navigates a fixed name-indexed hierarchy with
ElementTree find/findall/iterfind calls; those calls are modelled by a step
list where each step carries a tag and an optional SHORT-NAME predicate. -/

/-- One step of an ElementTree path. -/
structure EStep where
  tag : String
  shortName : Option String
deriving DecidableEq, Repr

/-- A plain tag step. -/
def st0 (t : String) : EStep := ⟨t, none⟩

/-- A tag step with a SHORT-NAME predicate. -/
def stN (t nm : String) : EStep := ⟨t, some nm⟩

/-- Whether an element satisfies a step: tag match plus, when present, some
SHORT-NAME child with the predicate text. -/
def stepMatches (st : EStep) (e : XmlElem) : Bool :=
  e.tag == st.tag &&
  (match st.shortName with
   | none => true
   | some nm =>
       e.children.any (fun c => c.tag == "SHORT-NAME" && c.text == some nm))

/-- ElementTree findall on a relative step path, in document order. -/
def eFindAll (e : XmlElem) : List EStep → List XmlElem
  | [] => [e]
  | st :: rest =>
      ((e.children.filter (stepMatches st)).map (fun c => eFindAll c rest)).flatten

/-- ElementTree find: the first match of findall. -/
def eFind (e : XmlElem) (p : List EStep) : Option XmlElem := (eFindAll e p).head?

/-- ECUC_VALUE_COLLECTION_XPATH. -/
def ecucValueCollectionPath : List EStep :=
  [st0 "AR-PACKAGES", st0 "AR-PACKAGE", st0 "ELEMENTS",
   st0 "ECUC-VALUE-COLLECTION"]

/-- ECUC_MODULE_CONFIGURATION_VALUES_REF_XPATH. -/
def ecucModuleCfgRefPath : List EStep :=
  [st0 "ECUC-VALUES", st0 "ECUC-MODULE-CONFIGURATION-VALUES-REF-CONDITIONAL",
   st0 "ECUC-MODULE-CONFIGURATION-VALUES-REF"]

/-- is_ecu_extract (lines 1724-1728). -/
def isEcuExtract (root : XmlElem) : Bool :=
  (eFind root ecucValueCollectionPath).isSome

/-- One entry yielded by iter_parameter_values: the last DEFINITION-REF
path segment and the VALUE text; a missing part raises. -/
def paramEntry (p : XmlElem) : Except Err (String × Option String) := do
  let dr ← match eFind p [st0 "DEFINITION-REF"] with
           | some d => pure d
           | none => Except.error Err.attributeError
  let v ← match eFind p [st0 "VALUE"] with
          | some vv => pure vv.text
          | none => Except.error Err.attributeError
  let drt ← match dr.text with
            | some t => pure t
            | none => Except.error Err.attributeError
  return (((pySplitChar '/' drt).getLastD ""), v)

/-- One entry yielded by iter_reference_values (VALUE-REF instead of
VALUE). -/
def refEntry (p : XmlElem) : Except Err (String × Option String) := do
  let dr ← match eFind p [st0 "DEFINITION-REF"] with
           | some d => pure d
           | none => Except.error Err.attributeError
  let v ← match eFind p [st0 "VALUE-REF"] with
          | some vv => pure vv.text
          | none => Except.error Err.attributeError
  let drt ← match dr.text with
            | some t => pure t
            | none => Except.error Err.attributeError
  return (((pySplitChar '/' drt).getLastD ""), v)

/-- iter_parameter_values raises when PARAMETER-VALUES is absent. -/
def paramContainer (c : XmlElem) : Except Err (List XmlElem) :=
  match eFind c [st0 "PARAMETER-VALUES"] with
  | none => .error .valueError
  | some pv => .ok pv.children

/-- iter_reference_values raises when REFERENCE-VALUES is absent. -/
def refContainer (c : XmlElem) : Except Err (List XmlElem) :=
  match eFind c [st0 "REFERENCE-VALUES"] with
  | none => .error .valueError
  | some rv => .ok rv.children

/-- Lazy scan for the first parameter entry of a name, evaluating entries
up to and including the hit (the break pattern of load_message). -/
def scanEntryFirst (entry : XmlElem → Except Err (String × Option String))
    (target : String) : List XmlElem → Except Err (Option (Option String))
  | [] => .ok none
  | p :: rest => do
      let (nm, v) ← entry p
      if nm = target then return (some v)
      else scanEntryFirst entry target rest

/-- The direction-style parameter lookup of load_message. -/
def findParamValue (c : XmlElem) (target : String) :
    Except Err (Option (Option String)) := do
  let ps ← paramContainer c
  scanEntryFirst paramEntry target ps

/-- The ComPduIdRef-style reference lookup of load_message. -/
def findRefValue (c : XmlElem) (target : String) :
    Except Err (Option (Option String)) := do
  let rs ← refContainer c
  scanEntryFirst refEntry target rs

/-- int(value) on a parameter value: None is a TypeError. -/
def pyIntErr (v : Option String) : Except Err Int :=
  match v with
  | none => .error .typeError
  | some s => ofOpt (pyIntDec s)

/-- The parameter fold of load_message_rx_tx: CAN id, DLC and id type
collected over all entries (later entries overwrite). -/
def rxTxFold (pCanId pDlc pType : String) :
    List XmlElem → Option Int × Option Int × Option Bool →
    Except Err (Option Int × Option Int × Option Bool)
  | [], st => .ok st
  | p :: rest, (fid, len, ext) => do
      let (nm, v) ← paramEntry p
      let st' ←
        if nm = pCanId then do
          let i ← pyIntErr v
          pure (some i, len, ext)
        else if nm = pDlc then do
          let i ← pyIntErr v
          pure (fid, some i, ext)
        else if nm = pType then
          pure (fid, len, some (v == some "EXTENDED_CAN"))
        else pure (fid, len, ext)
      rxTxFold pCanId pDlc pType rest st'

/-- The candidate CanIf sub-containers of find_can_if_rx_tx_pdu_cfg. -/
def canIfCandidates (root : XmlElem) (pkg : String) : List XmlElem :=
  eFindAll root
    [st0 "AR-PACKAGES", stN "AR-PACKAGE" pkg, st0 "ELEMENTS",
     stN "ECUC-MODULE-CONFIGURATION-VALUES" "CanIf", st0 "CONTAINERS",
     stN "ECUC-CONTAINER-VALUE" "CanIfInitCfg", st0 "SUB-CONTAINERS",
     st0 "ECUC-CONTAINER-VALUE"]

/-- The reference scan of find_can_if_rx_tx_pdu_cfg: is there an entry of
the expected name whose value equals the wanted reference. -/
def scanRefMatch (expected : String) (wanted : Option String) :
    List XmlElem → Except Err Bool
  | [] => .ok false
  | p :: rest => do
      let (nm, v) ← refEntry p
      if nm = expected ∧ v = wanted then return true
      else scanRefMatch expected wanted rest

/-- The candidate loop of find_can_if_rx_tx_pdu_cfg. -/
def canIfLoop (comPduIdRef : String) : List XmlElem →
    Except Err (Option XmlElem)
  | [] => .ok none
  | m :: rest => do
      let dr ← match eFind m [st0 "DEFINITION-REF"] with
               | some d => pure d
               | none => Except.error Err.attributeError
      let drt ← match dr.text with
                | some t => pure t
                | none => Except.error Err.attributeError
      if pyEndsWith drt "CanIfTxPduCfg" then do
        let rs ← refContainer m
        let hit ← scanRefMatch "CanIfTxPduRef" (some comPduIdRef) rs
        if hit then return (some m) else canIfLoop comPduIdRef rest
      else if pyEndsWith drt "CanIfRxPduCfg" then do
        let rs ← refContainer m
        let hit ← scanRefMatch "CanIfRxPduRef" (some comPduIdRef) rs
        if hit then return (some m) else canIfLoop comPduIdRef rest
      else canIfLoop comPduIdRef rest

/-- find_can_if_rx_tx_pdu_cfg (lines 1663-1692). -/
def findCanIfRxTxPduCfg (root : XmlElem) (comPduIdRef : String) :
    Except Err (Option XmlElem) := do
  let pkg ← match (pySplitChar '/' comPduIdRef).get? 1 with
            | some p => pure p
            | none => Except.error Err.indexError
  canIfLoop comPduIdRef (canIfCandidates root pkg)

/-- load_message_rx_tx: id, length and extendedness from the matching
CanIf entry, all absent when no entry matches. -/
def loadMessageRxTx (root : XmlElem) (comPduIdRef : String)
    (pCanId pDlc pType : String) :
    Except Err (Option Int × Option Int × Option Bool) := do
  let cfg ← findCanIfRxTxPduCfg root comPduIdRef
  match cfg with
  | none => return (none, none, none)
  | some m => do
      let ps ← paramContainer m
      rxTxFold pCanId pDlc pType ps (none, none, none)

/-- find_value of EcuExtractLoader (lines 1650-1661). -/
def findValueEcu (root : XmlElem) (xpath : String) :
    Except Err (Option XmlElem) := do
  let parts := pySplitChar '/' xpath
  let pkg ← match parts.get? 1 with
            | some p => pure p
            | none => Except.error Err.indexError
  return eFind root
    [st0 "AR-PACKAGES", stN "AR-PACKAGE" pkg, st0 "ELEMENTS",
     stN "ECUC-MODULE-CONFIGURATION-VALUES" "Com", st0 "CONTAINERS",
     stN "ECUC-CONTAINER-VALUE" "ComConfig", st0 "SUB-CONTAINERS",
     stN "ECUC-CONTAINER-VALUE" (parts.getLastD "")]

/-- The parameter fold of EcuExtractLoader.load_signal. -/
def ecuSigFold :
    List XmlElem →
    Option Int × Option Int × Option String × Bool × Bool →
    Except Err (Option Int × Option Int × Option String × Bool × Bool)
  | [], st => .ok st
  | p :: rest, (bp, len, bo, sg, fl) => do
      let (nm, v) ← paramEntry p
      let st' ←
        if nm = "ComBitPosition" then do
          let i ← pyIntErr v
          pure (some i, len, bo, sg, fl)
        else if nm = "ComBitSize" then do
          let i ← pyIntErr v
          pure (bp, some i, bo, sg, fl)
        else if nm = "ComSignalEndianness" then
          match v with
          | some s => pure (bp, len, some (pyLower s), sg, fl)
          | none => Except.error Err.attributeError
        else if nm = "ComSignalType" then
          if v = some "SINT8" ∨ v = some "SINT16" ∨ v = some "SINT32" then
            pure (bp, len, bo, true, fl)
          else if v = some "FLOAT32" ∨ v = some "FLOAT64" then
            pure (bp, len, bo, sg, true)
          else pure (bp, len, bo, sg, fl)
        else pure (bp, len, bo, sg, fl)
      ecuSigFold rest st'

/-- EcuExtractLoader.load_signal: bit position, size and endianness are all
required, a missing one skips the signal (absence, with a warning). -/
def ecuLoadSignal (root : XmlElem) (xpath : String) :
    Except Err (Option CSignal) := do
  let ecv ← findValueEcu root xpath
  match ecv with
  | none => return none
  | some c => do
      let name ← match eFind c [st0 "SHORT-NAME"] with
                 | some sn => pure sn.text
                 | none => Except.error Err.attributeError
      let ps ← paramContainer c
      let r ← ecuSigFold ps (none, none, none, false, false)
      match r with
      | (some bpv, some lenv, some bov, isSigned, isFloat) =>
          return some { name := name, start := bpv, length := some lenv,
                        byteOrder := bov, isSigned := isSigned,
                        isFloat := isFloat }
      | _ => return none

/-- The signal-reference loop of EcuExtractLoader.load_message. -/
def ecuSigLoop (root : XmlElem) :
    List XmlElem → List CSignal → Except Err (List CSignal)
  | [], acc => .ok acc
  | v :: rest, acc => do
      let dr ← match eFind v [st0 "DEFINITION-REF"] with
               | some d => pure d
               | none => Except.error Err.attributeError
      let drt ← match dr.text with
                | some t => pure t
                | none => Except.error Err.attributeError
      if ¬ pyEndsWith drt "ComIPduSignalRef" then ecuSigLoop root rest acc
      else do
        let vr ← match eFind v [st0 "VALUE-REF"] with
                 | some x => pure x
                 | none => Except.error Err.attributeError
        let vrt ← match vr.text with
                  | some t => pure t
                  | none => Except.error Err.attributeError
        let s ← ecuLoadSignal root vrt
        match s with
        | some sg => ecuSigLoop root rest (acc ++ [sg])
        | none => ecuSigLoop root rest acc

/-- EcuExtractLoader.load_message: resolve the direction and the CanIf
entry; a missing CAN id, frame type or length skips the message with a
warning (absence); an unsupported direction or missing ComPduIdRef
aborts. -/
def ecuLoadMessage (root : XmlElem) (comIPdu : XmlElem) :
    Except Err (Option CMessage) := do
  let name ← match eFind comIPdu [st0 "SHORT-NAME"] with
             | some sn => pure sn.text
             | none => Except.error Err.attributeError
  let direction ← findParamValue comIPdu "ComIPduDirection"
  let comPduIdRef0 ← findRefValue comIPdu "ComPduIdRef"
  let comPduIdRef ← match comPduIdRef0 with
                    | some (some r) => pure r
                    | _ => Except.error Err.valueError
  let rxtx ←
    if direction = some (some "SEND") then
      loadMessageRxTx root comPduIdRef "CanIfTxPduCanId" "CanIfTxPduDlc"
        "CanIfTxPduCanIdType"
    else if direction = some (some "RECEIVE") then
      loadMessageRxTx root comPduIdRef "CanIfRxPduCanId" "CanIfRxPduDlc"
        "CanIfRxPduCanIdType"
    else Except.error Err.notImplementedError
  match rxtx with
  | (none, _, _) => return none
  | (some fid, len, ext) =>
    match ext with
    | none => return none
    | some extv =>
      match len with
      | none => return none
      | some lenv => do
          let refVals := eFindAll comIPdu
            [st0 "REFERENCE-VALUES", st0 "ECUC-REFERENCE-VALUE"]
          let signals ← ecuSigLoop root refVals []
          return some ⟨fid, extv, name, lenv, signals, none, none⟩

/-- The ComConfig sub-container list of EcuExtractLoader.load
(find_com_config, lines 1638-1648). -/
def findComConfig (root : XmlElem) (xpath : String) :
    Except Err (Option XmlElem) := do
  let pkg ← match (pySplitChar '/' xpath).get? 1 with
            | some p => pure p
            | none => Except.error Err.indexError
  return eFind root
    [st0 "AR-PACKAGES", stN "AR-PACKAGE" pkg, st0 "ELEMENTS",
     stN "ECUC-MODULE-CONFIGURATION-VALUES" "Com", st0 "CONTAINERS",
     stN "ECUC-CONTAINER-VALUE" "ComConfig", st0 "SUB-CONTAINERS"]

/-- The DEFINITION-REF text of an ECUC container (a missing element or
text raises, as in the attribute accesses of the source loops). -/
def containerDefRef (c : XmlElem) : Except Err String := do
  let dr ← match eFind c [st0 "DEFINITION-REF"] with
           | some d => pure d
           | none => Except.error Err.attributeError
  match dr.text with
  | some t => pure t
  | none => Except.error Err.attributeError

/-- The per-container loop of EcuExtractLoader.load: containers that are
not ComIPdu are passed over, loaded messages are appended, skipped ones are
not. -/
def ecuIPduLoop (root : XmlElem) :
    List XmlElem → List CMessage → Except Err (List CMessage)
  | [], msgs => .ok msgs
  | c :: rest, msgs => do
      let drt ← containerDefRef c
      if ¬ pyEndsWith drt "ComIPdu" then ecuIPduLoop root rest msgs
      else do
        let m ← ecuLoadMessage root c
        match m with
        | some msg => ecuIPduLoop root rest (msgs ++ [msg])
        | none => ecuIPduLoop root rest msgs

/-- EcuExtractLoader.load: exactly one Com module reference, then every
ComIPdu container of its ComConfig. -/
def ecuLoad (root : XmlElem) : Except Err (List CMessage) := do
  let evc ← match eFind root ecucValueCollectionPath with
            | some e => pure e
            | none => Except.error Err.attributeError
  let valuesRefs := eFindAll evc ecucModuleCfgRefPath
  let comXpaths ← valuesRefs.foldlM (fun acc vr => do
      match vr.text with
      | none => Except.error Err.attributeError
      | some t =>
          if pyEndsWith t "/Com" then pure (acc ++ [t]) else pure acc)
    ([] : List String)
  let comXpath ← match comXpaths with
                 | [x] => pure x
                 | _ => Except.error Err.valueError
  let comConfig ← findComConfig root (comXpath ++ "/ComConfig")
  let cc ← match comConfig with
           | some c => pure c
           | none => Except.error Err.typeError
  ecuIPduLoop root cc.children []

/-! ## Concrete documents used by the witnesses and counterexamples -/

/-- Element without text. -/
def xe (t : String) (cs : List XmlElem) : XmlElem := .mk t none [] cs

/-- Leaf element with text. -/
def xt (t : String) (s : String) : XmlElem := .mk t (some s) [] []

/-- Two sibling packages with the same SHORT-NAME: both compute the
reference path /P. -/
def dupPathDoc : XmlElem :=
  xe "AUTOSAR" [xe "AR-PACKAGE" [xt "SHORT-NAME" "P"],
                xe "AR-PACKAGE" [xt "SHORT-NAME" "P"]]

/-- A small well-formed document with two indexed nodes. -/
def idxDoc : XmlElem :=
  xe "AUTOSAR" [xe "AR-PACKAGE" [xt "SHORT-NAME" "P",
                                 xe "I-SIGNAL" [xt "SHORT-NAME" "S"]]]

/-- The successfully built index of idxDoc. -/
def idxDocIdx : RefState := (buildIndex 20 idxDoc).toOption.getD RefState.empty

/-! ## C6 -/

/-- C6: querying autosar_version_newer with only the major component (minor
and patch omitted) is true exactly when the detected major version is at
least the queried major, whatever the detected minor and patch are. -/
theorem c6_version_newer_major_only (vmaj vmin vpat major : Nat) :
    autosar_version_newer vmaj vmin vpat major none none =
      decide (major ≤ vmaj) := by
  unfold autosar_version_newer
  by_cases h1 : vmaj > major
  · have hle : major ≤ vmaj := Nat.le_of_lt h1
    simp [h1, hle]
  · by_cases h2 : vmaj < major
    · have hle : ¬ (major ≤ vmaj) := by omega
      simp [h1, h2, hle]
    · have hle : major ≤ vmaj := by omega
      simp [h1, h2, hle]

/-! ## C10 -/

/-- C10: parse_int_string returns 0 for an empty or whitespace-only input
instead of raising; a stripped input with a leading zero followed by a digit
is read as octal (so the string 017 means fifteen); any other input is read
with Python base autodetection (hex, octal and decimal markers). -/
theorem c10_parse_int_string :
    (∀ s : String, pyStrip s = "" → parse_int_string (some s) = .ok 0) ∧
    (∀ (s : String) (c0 : Char) (rest : List Char),
      (pyStrip s).toList = c0 :: rest → c0 = '0' →
      rest.head?.elim false Char.isDigit = true →
      parse_int_string (some s) = ofOpt (pyIntOct (pyStrip s))) ∧
    (∀ (s : String) (c0 : Char) (rest : List Char),
      (pyStrip s).toList = c0 :: rest →
      ¬(c0 = '0' ∧ rest.head?.elim false Char.isDigit = true) →
      parse_int_string (some s) = ofOpt (pyIntAuto (pyStrip s))) ∧
    parse_int_string (some "   ") = .ok 0 ∧
    parse_int_string (some "017") = .ok 15 ∧
    parse_int_string (some " 0x1A ") = .ok 26 ∧
    parse_int_string (some "0o17") = .ok 15 ∧
    parse_int_string (some "42") = .ok 42 := by
  refine ⟨?_, ?_, ?_, by decide, by decide, by decide, by decide, by decide⟩
  · intro s h
    simp [parse_int_string, h]
  · intro s c0 rest hl hc hd
    have hne : (pyStrip s).isEmpty = false := by
      have h' : ¬ ((pyStrip s).isEmpty = true) := by
        rw [String.isEmpty_iff]
        intro he
        rw [he] at hl
        simp at hl
      exact Bool.eq_false_iff.mpr h'
    simp only [parse_int_string, hne, Bool.false_eq_true, if_false]
    rw [hl]
    simp [hc, hd]
  · intro s c0 rest hl hcd
    have hne : (pyStrip s).isEmpty = false := by
      have h' : ¬ ((pyStrip s).isEmpty = true) := by
        rw [String.isEmpty_iff]
        intro he
        rw [he] at hl
        simp at hl
      exact Bool.eq_false_iff.mpr h'
    simp only [parse_int_string, hne, Bool.false_eq_true, if_false]
    rw [hl]
    simp only [hcd, if_false]

/-- C10 witness: the general clauses applied at whitespace-only and octal
inputs. -/
theorem c10_witness :
    (pyStrip "  \t " = "" ∧ parse_int_string (some "  \t ") = .ok 0) ∧
    ((pyStrip " 017").toList = '0' :: ['1', '7'] ∧
     parse_int_string (some " 017") = ofOpt (pyIntOct (pyStrip " 017"))) :=
  ⟨⟨by decide, c10_parse_int_string.1 "  \t " (by decide)⟩,
   ⟨by decide,
    c10_parse_int_string.2.1 " 017" '0' ['1', '7'] (by decide) rfl
      (by decide)⟩⟩

/-! ## C5 -/

/-- C5 counterexample: an AUTOSAR-4 namespace whose URI carries minor and
patch digits is NOT normalized to (4, 0, 0): the detected triple keeps the
digits of the URI. -/
theorem c5_counterexample :
    nsMatch4 "http://autosar.org/schema/r4.2.2" = some "4.2.2" ∧
    detectArVersion "http://autosar.org/schema/r4.2.2" = .ok (4, 2, 2) ∧
    ((4, 2, 2) : Nat × Nat × Nat) ≠ ((4, 0, 0) : Nat × Nat × Nat) := by
  refine ⟨by decide, by decide, by decide⟩

theorem nsMatch4_shape {ns cap : String} (h : nsMatch4 ns = some cap) :
    ∃ rest : List Char, cap = ⟨'4' :: '.' :: rest⟩ := by
  unfold nsMatch4 at h
  split at h
  next rest heq =>
    split at h
    · injection h with h
      exact ⟨rest, h.symm⟩
    · cases h
  next => cases h

theorem parseVersionChars_major4 {rest : List Char} {v : Nat × Nat × Nat}
    (h : parseVersionChars ('4' :: '.' :: rest) = .ok v) : v.1 = 4 := by
  have htake : ('4' :: '.' :: rest).takeWhile Char.isDigit = ['4'] := by
    simp [List.takeWhile_cons]
  have hig : intGroup ['4'] = .ok 4 := by decide
  simp only [parseVersionChars] at h
  rw [htake] at h
  simp only [List.length_cons, List.length_nil, List.drop_succ_cons,
    List.drop_zero, hig, bind, Except.bind, pure, Except.pure] at h
  repeat' split at h
  all_goals (try cases h)
  all_goals rfl

/-- C5 amended: for an AUTOSAR 4 document the detected triple is parsed
from the digits the namespace URI carries (so a URI r4.0 yields (4, 0, 0)
while a hypothetical r4.2.2 would yield (4, 2, 2), not a normalized
(4, 0, 0)); the major component of any successful detection on an AUTOSAR 4
namespace is 4. -/
theorem c5_amended :
    (∀ (ns cap : String) (v : Nat × Nat × Nat), nsMatch4 ns = some cap →
      detectArVersion ns = .ok v → v.1 = 4) ∧
    detectArVersion "http://autosar.org/schema/r4.0" = .ok (4, 0, 0) ∧
    detectArVersion "http://autosar.org/schema/r4.2.2" = .ok (4, 2, 2) := by
  refine ⟨?_, by decide, by decide⟩
  intro ns cap v hm hd
  obtain ⟨rest, hcap⟩ := nsMatch4_shape hm
  unfold detectArVersion at hd
  rw [hm] at hd
  simp only [bind, Except.bind, pure, Except.pure] at hd
  cases hp : parseVersionString cap with
  | error e => rw [hp] at hd; cases hd
  | ok trip =>
      rw [hp] at hd
      have h4 : trip.1 = 4 := by
        have hpc : parseVersionChars ('4' :: '.' :: rest) = .ok trip := by
          rw [← hp, hcap]
          rfl
        exact parseVersionChars_major4 hpc
      obtain ⟨a, b, c⟩ := trip
      simp only at hd
      split at hd
      · cases hd
      · injection hd with hd
        rw [← hd]
        exact h4

/-- C5 witness for the amended clause: the universally quantified part
applied at the plain AUTOSAR 4 namespace. -/
theorem c5_witness :
    nsMatch4 "http://autosar.org/schema/r4.0" = some "4.0" ∧
    detectArVersion "http://autosar.org/schema/r4.0" = .ok (4, 0, 0) ∧
    ((4, 0, 0) : Nat × Nat × Nat).1 = 4 :=
  ⟨by decide, by decide,
   c5_amended.1 "http://autosar.org/schema/r4.0" "4.0" (4, 0, 0) (by decide)
     (by decide)⟩

/-! ## C4 -/

/-- C4: a successfully built reference index never maps one path to two
nodes (no silent overwrite of the first registration), and a document in
which two elements compute the same SHORT-NAME path fails the load with a
duplicate-path error. -/
theorem c4_duplicate_paths :
    (∀ (fuel : Nat) (root : XmlElem) (idx : RefState),
      buildIndex fuel root = .ok idx →
      ∀ (p : String) (q q' : Pos),
        (p, q) ∈ idx.pathToNode → (p, q') ∈ idx.pathToNode → q = q') ∧
    buildIndex 20 dupPathDoc = .error (.duplicatePath "/P") := by
  constructor
  · intro fuel root idx h p q q' hq hq'
    have hinv := buildIndex_inv h
    have h1 := alGet_of_nodup_mem hinv.1 hq
    have h2 := alGet_of_nodup_mem hinv.1 hq'
    rw [h1] at h2
    injection h2
  · decide

/-- C4 witness: the no-overwrite clause applied to the concrete index of
idxDoc. -/
theorem c4_witness :
    buildIndex 20 idxDoc = .ok idxDocIdx ∧
    ("/P/S", ([0, 1] : Pos)) ∈ idxDocIdx.pathToNode ∧
    ([0, 1] : Pos) = ([0, 1] : Pos) :=
  ⟨by decide, by decide,
   c4_duplicate_paths.1 20 idxDoc idxDocIdx (by decide) "/P/S" [0, 1] [0, 1]
     (by decide) (by decide)⟩

/-! ## C7 -/

/-- C7: after a successful index construction the two maps are mutual
inverses on every indexed node: a node registered under path p looks up to
p in the node-to-path map, and p looks up back to that node. -/
theorem c7_maps_roundtrip :
    ∀ (fuel : Nat) (root : XmlElem) (idx : RefState),
      buildIndex fuel root = .ok idx →
      ∀ (p : String) (q : Pos), (p, q) ∈ idx.pathToNode →
        alGet idx.nodeToPath q = some p ∧ alGet idx.pathToNode p = some q := by
  intro fuel root idx h p q hmem
  have hinv := buildIndex_inv h
  exact ⟨hinv.2.2 (p, q) hmem, alGet_of_nodup_mem hinv.1 hmem⟩

/-- C7 witness: the round trip evaluated on the concrete index of
idxDoc. -/
theorem c7_witness :
    buildIndex 20 idxDoc = .ok idxDocIdx ∧
    ("/P/S", ([0, 1] : Pos)) ∈ idxDocIdx.pathToNode ∧
    (alGet idxDocIdx.nodeToPath [0, 1] = some "/P/S" ∧
     alGet idxDocIdx.pathToNode "/P/S" = some [0, 1]) :=
  ⟨by decide, by decide,
   c7_maps_roundtrip 20 idxDoc idxDocIdx (by decide) "/P/S" [0, 1]
     (by decide)⟩

/-! ## C2 -/

theorem tag_ne_ref (s : String) : s ≠ s ++ "-REF" := by
  intro h
  have hlen := congrArg String.length h
  rw [String.length_append] at hlen
  have h4 : ("-REF" : String).length = 4 := rfl
  omega

theorem scanChildren_resolves :
    ∀ (ctx : Ctx) (basePos : Pos) (tagName : String) (cs : List XmlElem)
      (i : Nat) (out : List Pos),
      scanChildren ctx basePos tagName cs i = .ok out →
      ∀ c ∈ cs, c.tag = tagName ++ "-REF" →
        ∃ p, followArxmlReference ctx basePos c.text (attrGet c "DEST")
          (attrGet c "BASE") = .ok (some p) := by
  intro ctx basePos tagName cs
  induction cs with
  | nil =>
      intro i out h c hc
      simp at hc
  | cons c0 rest ih =>
      intro i out h c hc hctag
      rw [scanChildren] at h
      by_cases h1 : c0.tag = tagName
      · rw [if_pos h1] at h
        rcases List.mem_cons.mp hc with rfl | hmem
        · exfalso
          rw [h1] at hctag
          exact tag_ne_ref tagName hctag
        · cases hr : scanChildren ctx basePos tagName rest (i + 1) with
          | error e => simp [hr, bind, Except.bind] at h
          | ok r => exact ih (i + 1) r hr c hmem hctag
      · rw [if_neg h1] at h
        by_cases h2 : c0.tag = tagName ++ "-REF"
        · rw [if_pos h2] at h
          cases hf : followArxmlReference ctx basePos c0.text
              (attrGet c0 "DEST") (attrGet c0 "BASE") with
          | error e => simp [hf, bind, Except.bind] at h
          | ok tmp =>
              cases tmp with
              | none => simp [hf, bind, Except.bind] at h
              | some p =>
                  rcases List.mem_cons.mp hc with rfl | hmem
                  · exact ⟨p, hf⟩
                  · simp only [hf, bind, Except.bind] at h
                    cases hr : scanChildren ctx basePos tagName rest (i + 1)
                      with
                    | error e => rw [hr] at h; cases h
                    | ok r => exact ih (i + 1) r hr c hmem hctag
        · rw [if_neg h2] at h
          rcases List.mem_cons.mp hc with rfl | hmem
          · exact absurd hctag h2
          · exact ih (i + 1) out h c hmem hctag

theorem loadMessagesLoop_all_ok :
    ∀ (fuel : Nat) (ctx : Ctx) (trigs : List Pos) (msgs out : List CMessage),
      loadMessagesLoop fuel ctx trigs msgs = .ok out →
      ∀ t ∈ trigs, ∃ m, loadMessageS fuel ctx t = .ok m := by
  intro fuel ctx trigs
  induction trigs with
  | nil =>
      intro msgs out h t ht
      simp at ht
  | cons t0 rest ih =>
      intro msgs out h t ht
      rw [loadMessagesLoop] at h
      cases hm : loadMessageS fuel ctx t0 with
      | error e => simp [hm, bind, Except.bind] at h
      | ok m =>
          simp only [hm, bind, Except.bind] at h
          rcases List.mem_cons.mp ht with rfl | hmem
          · exact ⟨m, hm⟩
          · exact ih (msgs ++ [m]) out h t hmem

theorem loadPackageContents_all_ok :
    ∀ (fuel : Nat) (ctx : Ctx) (pkg : Pos) (msgs out : List CMessage),
      loadPackageContents fuel ctx pkg msgs = .ok out →
      ∃ trigs,
        getArxmlChildren ctx [pkg] (frameTriggeringsSpec ctx) = .ok trigs ∧
        ∀ t ∈ trigs, ∃ m, loadMessageS fuel ctx t = .ok m := by
  intro fuel ctx pkg msgs out h
  unfold loadPackageContents at h
  cases hg : getArxmlChildren ctx [pkg] (frameTriggeringsSpec ctx) with
  | error e => simp [hg, bind, Except.bind] at h
  | ok trigs =>
      simp only [hg, bind, Except.bind] at h
      exact ⟨trigs, rfl, loadMessagesLoop_all_ok fuel ctx trigs msgs out h⟩

/-- C2: (1) the child scan only succeeds when every encountered atom-REF
child resolved to a node, so an unresolvable reference aborts the child
location with its dangling-reference error; (2) a package only contributes
to a load when its frame-triggering location succeeded and every single
triggering loaded into a message, so an aborted message load never hands a
partial message list to the caller. -/
theorem c2_dangling_aborts :
    (∀ (ctx : Ctx) (basePos : Pos) (tagName : String) (cs : List XmlElem)
       (i : Nat) (out : List Pos),
       scanChildren ctx basePos tagName cs i = .ok out →
       ∀ c ∈ cs, c.tag = tagName ++ "-REF" →
         ∃ p, followArxmlReference ctx basePos c.text (attrGet c "DEST")
           (attrGet c "BASE") = .ok (some p)) ∧
    (∀ (fuel : Nat) (ctx : Ctx) (pkg : Pos) (msgs out : List CMessage),
       loadPackageContents fuel ctx pkg msgs = .ok out →
       ∃ trigs,
         getArxmlChildren ctx [pkg] (frameTriggeringsSpec ctx) = .ok trigs ∧
         ∀ t ∈ trigs, ∃ m, loadMessageS fuel ctx t = .ok m) :=
  ⟨scanChildren_resolves, loadPackageContents_all_ok⟩

/-- A complete AUTOSAR 4 document with one frame triggering whose frame and
PDU are reached through references. -/
def c2Doc : XmlElem :=
  xe "AUTOSAR" [
    xe "AR-PACKAGES" [
      xe "AR-PACKAGE" [
        xt "SHORT-NAME" "P",
        xe "ELEMENTS" [
          xe "CAN-CLUSTER" [
            xt "SHORT-NAME" "CL",
            xe "CAN-CLUSTER-VARIANTS" [
              xe "CAN-CLUSTER-CONDITIONAL" [
                xe "PHYSICAL-CHANNELS" [
                  xe "CAN-PHYSICAL-CHANNEL" [
                    xe "FRAME-TRIGGERINGS" [
                      xe "CAN-FRAME-TRIGGERING" [
                        xt "SHORT-NAME" "T1",
                        xt "IDENTIFIER" "291",
                        XmlElem.mk "FRAME-REF" (some "/P/FR")
                          [("DEST", "CAN-FRAME")] []
                      ]
                    ]
                  ]
                ]
              ]
            ]
          ],
          xe "CAN-FRAME" [
            xt "SHORT-NAME" "FR",
            xt "FRAME-LENGTH" "8",
            xe "PDU-TO-FRAME-MAPPINGS" [
              xe "PDU-TO-FRAME-MAPPING" [
                XmlElem.mk "PDU-REF" (some "/P/PDU1")
                  [("DEST", "I-SIGNAL-I-PDU")] []
              ]
            ]
          ],
          xe "I-SIGNAL-I-PDU" [
            xt "SHORT-NAME" "PDU1",
            xe "I-SIGNAL-TO-PDU-MAPPINGS" [
              xe "I-SIGNAL-TO-I-PDU-MAPPING" [
                xt "START-POSITION" "0",
                xe "I-SIGNAL" [xt "SHORT-NAME" "S1", xt "LENGTH" "8"]
              ]
            ]
          ]
        ]
      ]
    ]
  ]

/-- The reference index of c2Doc, spelled out entry by entry (the value of
buildIndex on c2Doc). -/
def c2Idx : RefState :=
  ⟨[([0, 0, 1, 2, 1, 0, 1, 1], "/P/PDU1/S1"), ([0, 0, 1, 2, 1, 0, 1, 0], "/P/PDU1/S1"),
    ([0, 0, 1, 2, 1, 0, 1], "/P/PDU1/S1"), ([0, 0, 1, 2, 1, 0, 0], "/P/PDU1"), ([0, 0, 1, 2, 1, 0], "/P/PDU1"),
    ([0, 0, 1, 2, 1], "/P/PDU1"), ([0, 0, 1, 2, 0], "/P/PDU1"), ([0, 0, 1, 2], "/P/PDU1"),
    ([0, 0, 1, 1, 2, 0, 0], "/P/FR"), ([0, 0, 1, 1, 2, 0], "/P/FR"), ([0, 0, 1, 1, 2], "/P/FR"),
    ([0, 0, 1, 1, 1], "/P/FR"), ([0, 0, 1, 1, 0], "/P/FR"), ([0, 0, 1, 1], "/P/FR"),
    ([0, 0, 1, 0, 1, 0, 0, 0, 0, 0, 2], "/P/CL/T1"), ([0, 0, 1, 0, 1, 0, 0, 0, 0, 0, 1], "/P/CL/T1"),
    ([0, 0, 1, 0, 1, 0, 0, 0, 0, 0, 0], "/P/CL/T1"), ([0, 0, 1, 0, 1, 0, 0, 0, 0, 0], "/P/CL/T1"),
    ([0, 0, 1, 0, 1, 0, 0, 0, 0], "/P/CL"), ([0, 0, 1, 0, 1, 0, 0, 0], "/P/CL"), ([0, 0, 1, 0, 1, 0, 0], "/P/CL"),
    ([0, 0, 1, 0, 1, 0], "/P/CL"), ([0, 0, 1, 0, 1], "/P/CL"), ([0, 0, 1, 0, 0], "/P/CL"), ([0, 0, 1, 0], "/P/CL"),
    ([0, 0, 1], "/P"), ([0, 0, 0], "/P"), ([0, 0], "/P"), ([0], ""), ([], "")],
   [("/P/PDU1/S1", [0, 0, 1, 2, 1, 0, 1]), ("/P/PDU1", [0, 0, 1, 2]), ("/P/FR", [0, 0, 1, 1]),
    ("/P/CL/T1", [0, 0, 1, 0, 1, 0, 0, 0, 0, 0]), ("/P/CL", [0, 0, 1, 0]), ("/P", [0, 0])],
   [], []⟩

/-- The loader context of c2Doc. -/
def c2Ctx : Ctx := ⟨c2Doc, c2Idx, 4, 0, 0⟩

/-- The position of the CAN-FRAME-TRIGGERING of c2Doc. -/
def c2TrigPos : Pos := [0, 0, 1, 0, 1, 0, 0, 0, 0, 0]

set_option maxHeartbeats 2000000 in
/-- C2 witness: the scan of the triggering children (which contain a
FRAME-REF) succeeded and the first clause yields the resolved reference;
the package load succeeded and the second clause yields that every located
triggering loaded into a message. -/
theorem c2_witness :
    (scanChildren c2Ctx c2TrigPos "FRAME"
        ((elemAt c2Doc c2TrigPos).elim [] XmlElem.children) 0 =
      .ok [[0, 0, 1, 1]]) ∧
    ((XmlElem.mk "FRAME-REF" (some "/P/FR") [("DEST", "CAN-FRAME")] []) ∈
      ((elemAt c2Doc c2TrigPos).elim [] XmlElem.children)) ∧
    (∃ p, followArxmlReference c2Ctx c2TrigPos (some "/P/FR")
        (some "CAN-FRAME") none = .ok (some p)) ∧
    (loadPackageContents 30 c2Ctx [0, 0] [] =
      .ok ((loadPackageContents 30 c2Ctx [0, 0] []).toOption.getD [])) ∧
    (∃ trigs,
      getArxmlChildren c2Ctx [[0, 0]] (frameTriggeringsSpec c2Ctx) =
        .ok trigs ∧
      ∀ t ∈ trigs, ∃ m, loadMessageS 30 c2Ctx t = .ok m) := by
  have hch : (elemAt c2Doc c2TrigPos).elim [] XmlElem.children =
      [xt "SHORT-NAME" "T1", xt "IDENTIFIER" "291",
       XmlElem.mk "FRAME-REF" (some "/P/FR") [("DEST", "CAN-FRAME")] []] := rfl
  refine ⟨by decide, ?_, ?_, by decide, ?_⟩
  · rw [hch]
    exact .tail _ (.tail _ (.head _))
  · exact c2_dangling_aborts.1 c2Ctx c2TrigPos "FRAME"
      ((elemAt c2Doc c2TrigPos).elim [] XmlElem.children) 0
      [[0, 0, 1, 1]] (by decide)
      (XmlElem.mk "FRAME-REF" (some "/P/FR") [("DEST", "CAN-FRAME")] [])
      (by rw [hch]; exact .tail _ (.tail _ (.head _))) (by decide)
  · exact c2_dangling_aborts.2 30 c2Ctx [0, 0] []
      ((loadPackageContents 30 c2Ctx [0, 0] []).toOption.getD []) (by decide)


/-! ## C1 -/

/-- A MULTIPLEXED-I-PDU with one static signal and one dynamic alternative
holding a nested I-PDU: when decomposed it synthesizes one selector. -/
def mkNestedMux (nm : String) (dupTop dupNest : String) : XmlElem :=
  xe "MULTIPLEXED-I-PDU" [
    xt "SHORT-NAME" nm,
    xt "SELECTOR-FIELD-START-POSITION" "8",
    xt "SELECTOR-FIELD-LENGTH" "4",
    xe "I-SIGNAL-TO-PDU-MAPPINGS" [
      xe "I-SIGNAL-TO-I-PDU-MAPPING" [
        xt "START-POSITION" "0",
        xe "I-SIGNAL" [xt "SHORT-NAME" dupTop, xt "LENGTH" "4"]
      ]
    ],
    xe "DYNAMIC-PARTS" [
      xe "DYNAMIC-PART" [
        xe "DYNAMIC-PART-ALTERNATIVES" [
          xe "DYNAMIC-PART-ALTERNATIVE" [
            xt "SELECTOR-FIELD-CODE" "0",
            xe "I-PDU" [
              xe "I-SIGNAL-TO-PDU-MAPPINGS" [
                xe "I-SIGNAL-TO-I-PDU-MAPPING" [
                  xt "START-POSITION" "8",
                  xe "I-SIGNAL" [xt "SHORT-NAME" dupNest, xt "LENGTH" "4"]
                ]
              ]
            ]
          ]
        ]
      ]
    ]
  ]

/-- A document whose top multiplexed PDU has two dynamic alternatives, each
referring to a further multiplexed PDU: decomposing it creates a selector
for the top PDU and one for each nested PDU. -/
def c1Doc : XmlElem :=
  xe "AUTOSAR" [
    xe "AR-PACKAGES" [
      xe "AR-PACKAGE" [
        xt "SHORT-NAME" "P",
        xe "ELEMENTS" [
          xe "MULTIPLEXED-I-PDU" [
            xt "SHORT-NAME" "MUXTOP",
            xt "SELECTOR-FIELD-START-POSITION" "0",
            xt "SELECTOR-FIELD-LENGTH" "4",
            xe "DYNAMIC-PARTS" [
              xe "DYNAMIC-PART" [
                xe "DYNAMIC-PART-ALTERNATIVES" [
                  xe "DYNAMIC-PART-ALTERNATIVE" [
                    xt "SELECTOR-FIELD-CODE" "1",
                    XmlElem.mk "I-PDU-REF" (some "/P/MUXA")
                      [("DEST", "MULTIPLEXED-I-PDU")] []
                  ],
                  xe "DYNAMIC-PART-ALTERNATIVE" [
                    xt "SELECTOR-FIELD-CODE" "2",
                    XmlElem.mk "I-PDU-REF" (some "/P/MUXB")
                      [("DEST", "MULTIPLEXED-I-PDU")] []
                  ]
                ]
              ]
            ]
          ],
          mkNestedMux "MUXA" "DUPTOPA" "DUPNESTA",
          mkNestedMux "MUXB" "DUPTOPB" "DUPNESTB"
        ]
      ]
    ]
  ]

/-- The reference index of c1Doc, spelled out entry by entry (the value of
buildIndex on c1Doc). -/
def c1Idx : RefState :=
  ⟨[([0, 0, 1, 2, 4, 0, 0, 0, 1, 0, 0, 1, 1], "/P/MUXB/DUPNESTB"),
 ([0, 0, 1, 2, 4, 0, 0, 0, 1, 0, 0, 1, 0], "/P/MUXB/DUPNESTB"),
 ([0, 0, 1, 2, 4, 0, 0, 0, 1, 0, 0, 1], "/P/MUXB/DUPNESTB"),
 ([0, 0, 1, 2, 4, 0, 0, 0, 1, 0, 0, 0], "/P/MUXB"),
 ([0, 0, 1, 2, 4, 0, 0, 0, 1, 0, 0], "/P/MUXB"),
 ([0, 0, 1, 2, 4, 0, 0, 0, 1, 0], "/P/MUXB"),
 ([0, 0, 1, 2, 4, 0, 0, 0, 1], "/P/MUXB"),
 ([0, 0, 1, 2, 4, 0, 0, 0, 0], "/P/MUXB"),
 ([0, 0, 1, 2, 4, 0, 0, 0], "/P/MUXB"),
 ([0, 0, 1, 2, 4, 0, 0], "/P/MUXB"),
 ([0, 0, 1, 2, 4, 0], "/P/MUXB"),
 ([0, 0, 1, 2, 4], "/P/MUXB"),
 ([0, 0, 1, 2, 3, 0, 1, 1], "/P/MUXB/DUPTOPB"),
 ([0, 0, 1, 2, 3, 0, 1, 0], "/P/MUXB/DUPTOPB"),
 ([0, 0, 1, 2, 3, 0, 1], "/P/MUXB/DUPTOPB"),
 ([0, 0, 1, 2, 3, 0, 0], "/P/MUXB"),
 ([0, 0, 1, 2, 3, 0], "/P/MUXB"),
 ([0, 0, 1, 2, 3], "/P/MUXB"),
 ([0, 0, 1, 2, 2], "/P/MUXB"),
 ([0, 0, 1, 2, 1], "/P/MUXB"),
 ([0, 0, 1, 2, 0], "/P/MUXB"),
 ([0, 0, 1, 2], "/P/MUXB"),
 ([0, 0, 1, 1, 4, 0, 0, 0, 1, 0, 0, 1, 1], "/P/MUXA/DUPNESTA"),
 ([0, 0, 1, 1, 4, 0, 0, 0, 1, 0, 0, 1, 0], "/P/MUXA/DUPNESTA"),
 ([0, 0, 1, 1, 4, 0, 0, 0, 1, 0, 0, 1], "/P/MUXA/DUPNESTA"),
 ([0, 0, 1, 1, 4, 0, 0, 0, 1, 0, 0, 0], "/P/MUXA"),
 ([0, 0, 1, 1, 4, 0, 0, 0, 1, 0, 0], "/P/MUXA"),
 ([0, 0, 1, 1, 4, 0, 0, 0, 1, 0], "/P/MUXA"),
 ([0, 0, 1, 1, 4, 0, 0, 0, 1], "/P/MUXA"),
 ([0, 0, 1, 1, 4, 0, 0, 0, 0], "/P/MUXA"),
 ([0, 0, 1, 1, 4, 0, 0, 0], "/P/MUXA"),
 ([0, 0, 1, 1, 4, 0, 0], "/P/MUXA"),
 ([0, 0, 1, 1, 4, 0], "/P/MUXA"),
 ([0, 0, 1, 1, 4], "/P/MUXA"),
 ([0, 0, 1, 1, 3, 0, 1, 1], "/P/MUXA/DUPTOPA"),
 ([0, 0, 1, 1, 3, 0, 1, 0], "/P/MUXA/DUPTOPA"),
 ([0, 0, 1, 1, 3, 0, 1], "/P/MUXA/DUPTOPA"),
 ([0, 0, 1, 1, 3, 0, 0], "/P/MUXA"),
 ([0, 0, 1, 1, 3, 0], "/P/MUXA"),
 ([0, 0, 1, 1, 3], "/P/MUXA"),
 ([0, 0, 1, 1, 2], "/P/MUXA"),
 ([0, 0, 1, 1, 1], "/P/MUXA"),
 ([0, 0, 1, 1, 0], "/P/MUXA"),
 ([0, 0, 1, 1], "/P/MUXA"),
 ([0, 0, 1, 0, 3, 0, 0, 1, 1], "/P/MUXTOP"),
 ([0, 0, 1, 0, 3, 0, 0, 1, 0], "/P/MUXTOP"),
 ([0, 0, 1, 0, 3, 0, 0, 1], "/P/MUXTOP"),
 ([0, 0, 1, 0, 3, 0, 0, 0, 1], "/P/MUXTOP"),
 ([0, 0, 1, 0, 3, 0, 0, 0, 0], "/P/MUXTOP"),
 ([0, 0, 1, 0, 3, 0, 0, 0], "/P/MUXTOP"),
 ([0, 0, 1, 0, 3, 0, 0], "/P/MUXTOP"),
 ([0, 0, 1, 0, 3, 0], "/P/MUXTOP"),
 ([0, 0, 1, 0, 3], "/P/MUXTOP"),
 ([0, 0, 1, 0, 2], "/P/MUXTOP"),
 ([0, 0, 1, 0, 1], "/P/MUXTOP"),
 ([0, 0, 1, 0, 0], "/P/MUXTOP"),
 ([0, 0, 1, 0], "/P/MUXTOP"),
 ([0, 0, 1], "/P"),
 ([0, 0, 0], "/P"),
 ([0, 0], "/P"),
 ([0], ""),
 ([], "")],
   [("/P/MUXB/DUPNESTB", [0, 0, 1, 2, 4, 0, 0, 0, 1, 0, 0, 1]),
 ("/P/MUXB/DUPTOPB", [0, 0, 1, 2, 3, 0, 1]),
 ("/P/MUXB", [0, 0, 1, 2]),
 ("/P/MUXA/DUPNESTA", [0, 0, 1, 1, 4, 0, 0, 0, 1, 0, 0, 1]),
 ("/P/MUXA/DUPTOPA", [0, 0, 1, 1, 3, 0, 1]),
 ("/P/MUXA", [0, 0, 1, 1]),
 ("/P/MUXTOP", [0, 0, 1, 0]),
 ("/P", [0, 0])],
   [], []⟩

/-- The loader context of c1Doc. -/
def c1Ctx : Ctx := ⟨c1Doc, c1Idx, 4, 0, 0⟩

set_option maxHeartbeats 2000000 in
/-- C1: REFUTED — decomposing the top multiplexed PDU of c1Doc under frame
name F with incoming selector index 1 returns the incoming counter 1
unchanged even though three selectors were synthesized, because _load_pdu
(line 329) returns its next_selector_idx argument instead of the counter
updated by _load_pdu_multiplexed_parts; consequently the two nested
multiplexed PDUs are both decomposed with the same counter value and the
synthesized selector names F_selector2, F_selector2 collide instead of
being distinct. -/
theorem c1_counter_not_threaded :
    ((loadPdu 40 c1Ctx (some [0, 0, 1, 0]) (some "F") 1).map
        (fun r => (r.nextIdx, r.signals.map CSignal.name)) =
      .ok (1, [some "F_selector1", some "F_selector2", some "F_selector2"]))
    ∧ ¬ (([some "F_selector1", some "F_selector2", some "F_selector2"] :
          List (Option String)).Nodup) :=
  ⟨by decide, by decide⟩



/-! ## C3 -/

/-- The number of alternatives flagged initial. -/
def initWeight (ds : List DynaltData) : Nat :=
  (ds.filter (fun d => d.isInitial)).length

/-- The selector copy of one alternative: the signal sitting at the
selector start position, when unique. -/
def dupOf (selPos : Int) (dd : DynaltData) : Option CSignal :=
  match dd.signals.filter (fun x => x.start == selPos) with
  | [dup] => some dup
  | _ => none

/-- One dictionary-update step of the selector choices table. -/
def choicesStep (selPos : Int) (t : ChoicesT) (dd : DynaltData) : ChoicesT :=
  match (dupOf selPos dd).bind CSignal.choices with
  | some dch => dictUpd t dch
  | none => t

/-- The selector choices table accumulated over the alternatives: the
Python dict union of the per-alternative selector-copy tables. -/
def choicesUnion (selPos : Int) (ds : List DynaltData) (t : ChoicesT) : ChoicesT :=
  ds.foldl (choicesStep selPos) t

/-- The alternative loop at the list level: muxDynLoop with the
per-alternative document lookups already performed. -/
def muxFold (selPos selLen : Int) :
    List DynaltData → Int × CSignal × List CSignal →
    Except Err (Int × CSignal × List CSignal)
  | [], st => .ok st
  | dd :: rest, (_, sel, acc) => do
      let r ← muxStep selPos selLen (sel, acc) dd
      muxFold selPos selLen rest (dd.nextIdx, r.1, r.2)

/-- The per-alternative lookups of the loop, sequenced with the same
counter threading as the loop itself. -/
def dynDataList : Nat → Ctx → Option String → Int → List Pos →
    Except Err (List DynaltData)
  | 0, _, _, _, _ => .error .outOfFuel
  | _ + 1, _, _, _, [] => .ok []
  | n + 1, ctx, frameName, nextIdx, d :: rest => do
      let dd ← dynaltData n ctx d frameName nextIdx
      let tl ← dynDataList n ctx frameName dd.nextIdx rest
      return dd :: tl

/-- A multiplexed PDU with a single dynamic alternative whose selector copy
carries no choices table. -/
def c3xDoc : XmlElem := mkNestedMux "C3X" "TOP" "COPY"

/-- Its loader context (no references occur). -/
def c3xCtx : Ctx := ⟨c3xDoc, RefState.empty, 4, 0, 0⟩

/-- A dynamic alternative flagged initial, holding a proper selector copy. -/
def mkFlaggedAlt (code : String) : XmlElem :=
  xe "DYNAMIC-PART-ALTERNATIVE" [
    xt "SELECTOR-FIELD-CODE" code,
    xe "I-PDU" [
      xe "I-SIGNAL-TO-PDU-MAPPINGS" [
        xe "I-SIGNAL-TO-I-PDU-MAPPING" [
          xt "START-POSITION" "8",
          xe "I-SIGNAL" [xt "SHORT-NAME" ("C" ++ code), xt "LENGTH" "4"]
        ]
      ]
    ],
    xt "INITIAL-DYNAMIC-PART" "true"
  ]

/-- A multiplexed PDU whose two dynamic alternatives are both flagged
initial. -/
def c3wDoc : XmlElem :=
  xe "MULTIPLEXED-I-PDU" [
    xt "SHORT-NAME" "W",
    xt "SELECTOR-FIELD-START-POSITION" "8",
    xt "SELECTOR-FIELD-LENGTH" "4",
    xe "DYNAMIC-PARTS" [
      xe "DYNAMIC-PART" [
        xe "DYNAMIC-PART-ALTERNATIVES" [mkFlaggedAlt "1", mkFlaggedAlt "2"]
      ]
    ]
  ]

/-- Its loader context (no references occur). -/
def c3wCtx : Ctx := ⟨c3wDoc, RefState.empty, 4, 0, 0⟩

/-- Every failure of muxStep is the assertion error. -/
theorem muxStep_err_shape (selPos selLen : Int) (st : CSignal × List CSignal)
    (dd : DynaltData) (e : Err)
    (h : muxStep selPos selLen st dd = .error e) : e = .assertionError := by
  obtain ⟨sel, acc⟩ := st
  unfold muxStep at h
  simp only [bind, Except.bind, pure, Except.pure] at h
  repeat' split at h
  all_goals first
    | (injection h with h; exact h.symm)
    | cases h

/-- The selector returned by a successful muxStep: choices merged from the
unique selector copy, initial taken from the flag, a flag only accepted on
an unset initial. -/
theorem muxStep_ok_spec (selPos selLen : Int) (sel : CSignal)
    (acc : List CSignal) (dd : DynaltData) (r : CSignal × List CSignal)
    (h : muxStep selPos selLen (sel, acc) dd = .ok r) :
    r.1.choices = (match (dupOf selPos dd).bind CSignal.choices with
                   | some dch => some (dictUpd (sel.choices.getD []) dch)
                   | none => sel.choices) ∧
    r.1.initial = (if dd.isInitial then some (.num (dd.selValue : ℚ))
                   else sel.initial) ∧
    (dd.isInitial = true → sel.initial = none) := by
  unfold muxStep at h
  simp only [bind, Except.bind, pure, Except.pure] at h
  repeat' split at h
  all_goals (try cases h)
  all_goals simp_all [dupOf]

/-- Every failure of the alternative fold is the assertion error. -/
theorem muxFold_err_shape (selPos selLen : Int) :
    ∀ (ds : List DynaltData) (st : Int × CSignal × List CSignal),
      (∃ r, muxFold selPos selLen ds st = .ok r) ∨
      muxFold selPos selLen ds st = .error .assertionError := by
  intro ds
  induction ds with
  | nil => intro st; exact .inl ⟨st, rfl⟩
  | cons dd rest ih =>
      intro st
      obtain ⟨idx, sel, acc⟩ := st
      simp only [muxFold, bind, Except.bind]
      cases hms : muxStep selPos selLen (sel, acc) dd with
      | error e =>
          have he := muxStep_err_shape selPos selLen (sel, acc) dd e hms
          subst he
          right
          rfl
      | ok r => exact ih (dd.nextIdx, r.1, r.2)

/-- Success characterization of the alternative fold: the final selector
choices table is the dictionary union of the copies' tables; an alternative
flagged initial is only accepted while the selector initial is unset, so a
successful fold has at most one flagged alternative and ends with the
initial of the unique flagged alternative, if any. -/
theorem muxFold_ok_spec (selPos selLen : Int) :
    ∀ (ds : List DynaltData) (idx : Int) (sel : CSignal) (acc : List CSignal)
      (t : ChoicesT) (res : Int × CSignal × List CSignal),
      sel.choices = some t →
      muxFold selPos selLen ds (idx, sel, acc) = .ok res →
      res.2.1.choices = some (choicesUnion selPos ds t) ∧
      (∀ v, sel.initial = some v → initWeight ds = 0 ∧ res.2.1.initial = some v) ∧
      (sel.initial = none →
         initWeight ds ≤ 1 ∧
         res.2.1.initial = ((ds.filter (fun d => d.isInitial)).head?).map
           (fun d => InitVal.num (d.selValue : ℚ))) := by
  intro ds
  induction ds with
  | nil =>
      intro idx sel acc t res hc h
      simp only [muxFold] at h
      injection h with h
      rw [← h]
      refine ⟨by simpa [choicesUnion] using hc, ?_, ?_⟩
      · intro v hv
        exact ⟨rfl, hv⟩
      · intro hv
        simp [initWeight, hv]
  | cons dd rest ih =>
      intro idx sel acc t res hc h
      simp only [muxFold, bind, Except.bind] at h
      cases hms : muxStep selPos selLen (sel, acc) dd with
      | error e => rw [hms] at h; cases h
      | ok r =>
          rw [hms] at h
          obtain ⟨hch, hini, hflag⟩ := muxStep_ok_spec selPos selLen sel acc dd r hms
          have hc' : r.1.choices = some (choicesStep selPos t dd) := by
            rw [hch]
            unfold choicesStep
            cases hdp : (dupOf selPos dd).bind CSignal.choices <;> simp [hdp, hc]
          obtain ⟨ich, isome, inone⟩ :=
            ih dd.nextIdx r.1 r.2 (choicesStep selPos t dd) res hc' h
          have hcu : choicesUnion selPos (dd :: rest) t =
              choicesUnion selPos rest (choicesStep selPos t dd) := rfl
          refine ⟨by rw [hcu]; exact ich, ?_, ?_⟩
          · intro v hv
            have hb : dd.isInitial = false := by
              cases hbv : dd.isInitial with
              | true => rw [hflag hbv] at hv; cases hv
              | false => rfl
            have hri : r.1.initial = some v := by
              rw [hini, hb]
              simpa using hv
            obtain ⟨hw, hres⟩ := isome v hri
            refine ⟨?_, hres⟩
            simpa [initWeight, hb] using hw
          · intro hv
            cases hb : dd.isInitial with
            | true =>
                have hri : r.1.initial = some (.num (dd.selValue : ℚ)) := by
                  rw [hini, hb]
                  simp
                obtain ⟨hw, hres⟩ := isome _ hri
                have hwr : rest.filter (fun d => d.isInitial) = [] :=
                  List.eq_nil_of_length_eq_zero hw
                constructor
                · simp [initWeight, hb, hwr]
                · rw [hres]
                  simp [hb]
            | false =>
                have hri : r.1.initial = none := by
                  rw [hini, hb]
                  simpa using hv
                obtain ⟨hw, hres⟩ := inone hri
                refine ⟨by simpa [initWeight, hb] using hw, ?_⟩
                rw [hres]
                simp [hb]

/-- The document loop equals the list-level fold once the per-alternative
lookups are known to succeed. -/
theorem muxDynLoop_eq_muxFold :
    ∀ (n : Nat) (ctx : Ctx) (frameName : Option String) (selPos selLen : Int)
      (ds : List Pos) (idx : Int) (sel : CSignal) (acc : List CSignal)
      (dds : List DynaltData),
      dynDataList n ctx frameName idx ds = .ok dds →
      muxDynLoop n ctx frameName selPos selLen ds (idx, sel, acc) =
        muxFold selPos selLen dds (idx, sel, acc) := by
  intro n
  induction n with
  | zero =>
      intro ctx fn selPos selLen ds idx sel acc dds h
      simp [dynDataList] at h
  | succ n ih =>
      intro ctx fn selPos selLen ds idx sel acc dds h
      cases ds with
      | nil =>
          simp only [dynDataList] at h
          injection h with h
          rw [← h]
          rfl
      | cons d rest =>
          simp only [dynDataList, bind, Except.bind] at h
          cases hdd : dynaltData n ctx d fn idx with
          | error e => simp only [hdd] at h; cases h
          | ok dd =>
              simp only [hdd] at h
              cases htl : dynDataList n ctx fn dd.nextIdx rest with
              | error e => simp only [htl] at h; cases h
              | ok tl =>
                  simp only [htl, pure, Except.pure] at h
                  injection h with h
                  rw [← h]
                  simp only [muxDynLoop, muxFold, bind, Except.bind]
                  simp only [hdd]
                  cases hms : muxStep selPos selLen (sel, acc) dd with
                  | error e => simp only [hms]
                  | ok r =>
                      simp only [hms]
                      exact ih ctx fn selPos selLen rest dd.nextIdx r.1 r.2 tl htl

/-- C3: corrected.  For a multiplexed PDU whose N dynamic alternatives all
load, a successful pass of the alternative loop over a selector with unset
initial accepts at most one alternative flagged initial and sets the
selector initial to the flagged alternative's selector code exactly when one
is flagged; two flagged alternatives abort fatally with the assertion
error.  The selector choices table, however, is the Python dict union of the
per-alternative selector-copy tables, not necessarily N entries: a copy
without a table contributes nothing (see the counterexample). -/
theorem c3_amended (n : Nat) (ctx : Ctx) (frameName : Option String)
    (selPos selLen : Int) (ds : List Pos) (idx : Int) (sel : CSignal)
    (acc : List CSignal) (t : ChoicesT) (dds : List DynaltData)
    (hd : dynDataList n ctx frameName idx ds = .ok dds)
    (hi : sel.initial = none) (hc : sel.choices = some t) :
    (∀ res,
       muxDynLoop n ctx frameName selPos selLen ds (idx, sel, acc) = .ok res →
       initWeight dds ≤ 1 ∧
       res.2.1.initial = ((dds.filter (fun d => d.isInitial)).head?).map
         (fun d => InitVal.num (d.selValue : ℚ)) ∧
       res.2.1.choices = some (choicesUnion selPos dds t)) ∧
    (2 ≤ initWeight dds →
       muxDynLoop n ctx frameName selPos selLen ds (idx, sel, acc) =
         .error .assertionError) := by
  have hb := muxDynLoop_eq_muxFold n ctx frameName selPos selLen ds idx sel
    acc dds hd
  constructor
  · intro res hres
    rw [hb] at hres
    obtain ⟨hch, _, hnone⟩ :=
      muxFold_ok_spec selPos selLen dds idx sel acc t res hc hres
    obtain ⟨hw, hini⟩ := hnone hi
    exact ⟨hw, hini, hch⟩
  · intro hw
    rw [hb]
    rcases muxFold_err_shape selPos selLen dds (idx, sel, acc) with ⟨r, hr⟩ | he
    · obtain ⟨_, _, hnone⟩ :=
        muxFold_ok_spec selPos selLen dds idx sel acc t r hc hr
      obtain ⟨hw1, _⟩ := hnone hi
      exact absurd hw (by simp [initWeight] at hw1 ⊢; omega)
    · exact he

/-- The dynamic alternative data of c3wDoc: both alternatives flagged. -/
def c3wDds : List DynaltData :=
  [⟨1, 2, [{ name := some "C1", start := 8, length := some 4 }], true⟩,
   ⟨2, 2, [{ name := some "C2", start := 8, length := some 4 }], true⟩]

/-- The synthesized selector of the concrete documents. -/
def c3Sel : CSignal :=
  { name := some "F_selector1", start := 8, length := some 4,
    choices := some [], isMultiplexer := true }

/-- C3 counterexample to the original claim: c3xDoc has exactly one dynamic
alternative (N = 1), the decomposition yields exactly one selector signal,
yet its choices table has zero entries, not N, because the alternative's
selector copy carries no table. -/
theorem c3_counterexample :
    (getArxmlChildren c3xCtx [[]] (dynpartSpec c3xCtx)).map List.length =
      .ok 1 ∧
    (loadPduMultiplexedParts 40 c3xCtx [] (some "F") 1).map
        (fun sigs => sigs.map (fun s => (s.name, s.isMultiplexer,
          s.choices.map List.length))) =
      .ok [(some "F_selector1", true, some 0)] :=
  ⟨by decide, by decide⟩

/-- C3 witness: on c3wDoc the two alternatives both carry the initial flag
(weight 2) and their lookups succeed, so the amended theorem applies and the
loop aborts with the assertion error. -/
theorem c3_witness :
    (dynDataList 39 c3wCtx (some "F") 2 [[3, 0, 0, 0], [3, 0, 0, 1]] =
       .ok c3wDds ∧
     c3Sel.initial = none ∧ c3Sel.choices = some [] ∧
     2 ≤ initWeight c3wDds) ∧
    muxDynLoop 39 c3wCtx (some "F") 8 4 [[3, 0, 0, 0], [3, 0, 0, 1]]
      (2, c3Sel, []) = .error .assertionError :=
  ⟨⟨by decide, rfl, rfl, by decide⟩,
   (c3_amended 39 c3wCtx (some "F") 8 4 [[3, 0, 0, 0], [3, 0, 0, 1]] 2 c3Sel
      [] [] c3wDds (by decide) rfl rfl).2 (by decide)⟩

/-! ## C8 -/

/-- The scale-list evaluation: the per-scale lookups of every COMPU-SCALE. -/
def scaleDataList (ctx : Ctx) : List Pos → Except Err (List ScaleData)
  | [] => .ok []
  | p :: rest => do
      let sd ← scaleDataOf ctx p
      let tl ← scaleDataList ctx rest
      return sd :: tl

/-- The loop of _load_scale_linear_and_texttable at the list level: the
fold of the pure state update over the scale data. -/
def sltFold : List ScaleData → SltState → Except Err SltState
  | [], st => .ok st
  | sd :: rest, st => do
      let st' ← sltStep st sd
      sltFold rest st'

/-- The physical projection of a scale's lower internal limit through the
scale's own coefficients. -/
def projMin (sd : ScaleData) : Option ℚ :=
  sd.minIntScale.map (fun m =>
    (m : ℚ) * (match sd.coeffs with | some fo => fo.1 | none => 1) +
      (match sd.coeffs with | some fo => fo.2 | none => 0))

/-- The physical projection of a scale's upper internal limit through the
scale's own coefficients. -/
def projMax (sd : ScaleData) : Option ℚ :=
  sd.maxIntScale.map (fun m =>
    (m : ℚ) * (match sd.coeffs with | some fo => fo.1 | none => 1) +
      (match sd.coeffs with | some fo => fo.2 | none => 0))

/-- Setting a key makes it a key. -/
theorem mem_keysOf_dictSet_self {α β : Type} [DecidableEq α]
    (d : List (α × β)) (k : α) (v : β) : k ∈ keysOf (dictSet d k v) := by
  induction d with
  | nil => simp [dictSet, keysOf]
  | cons p r ih =>
      obtain ⟨a, b⟩ := p
      by_cases hak : a = k
      · simp [dictSet, hak, keysOf]
      · simp only [dictSet, if_neg hak, keysOf, List.map_cons, List.mem_cons]
        exact .inr ih

/-- Setting a key keeps every key. -/
theorem mem_keysOf_dictSet_mono {α β : Type} [DecidableEq α]
    (d : List (α × β)) (k a : α) (v : β) (h : a ∈ keysOf d) :
    a ∈ keysOf (dictSet d k v) := by
  induction d with
  | nil => simp [keysOf] at h
  | cons p r ih =>
      obtain ⟨x, b⟩ := p
      by_cases hxk : x = k
      · subst hxk
        simp only [keysOf, List.map_cons, List.mem_cons] at h
        have hred : dictSet ((x, b) :: r) x v = (x, v) :: r := by
          simp [dictSet]
        rw [hred]
        simp only [keysOf, List.map_cons, List.mem_cons]
        exact h
      · simp only [keysOf, List.map_cons, List.mem_cons] at h
        simp only [dictSet, if_neg hxk, keysOf, List.map_cons, List.mem_cons]
        rcases h with h | h
        · exact .inl h
        · exact .inr (ih h)

/-- The state after one accepted scale: a present coefficient pair
overwrites the running factor and offset; the running minimum and maximum
narrow by the scale's projected limits and may not start absent together
with the limit; a named constant is a single point added to the choices. -/
theorem sltStep_ok_spec (st : SltState) (sd : ScaleData) (st' : SltState)
    (h : sltStep st sd = .ok st') :
    st'.2.2.1 = (match sd.coeffs with | some fo => fo.1 | none => st.2.2.1) ∧
    st'.2.2.2.1 =
      (match sd.coeffs with | some fo => fo.2 | none => st.2.2.2.1) ∧
    (match st.1, projMin sd with
     | none, none => False
     | none, some m => st'.1 = some m
     | some cur, none => st'.1 = some cur
     | some cur, some m => st'.1 = some (min cur m)) ∧
    (match st.2.1, projMax sd with
     | none, none => False
     | none, some m => st'.2.1 = some m
     | some cur, none => st'.2.1 = some cur
     | some cur, some m => st'.2.1 = some (max cur m)) ∧
    (match sd.vtName with
     | none => st'.2.2.2.2 = st.2.2.2.2
     | some nm => ∃ v, sd.minIntScale = some v ∧ sd.maxIntScale = some v ∧
         st'.2.2.2.2 = dictSet st.2.2.2.2 v ⟨v, nm, sd.comments⟩) := by
  obtain ⟨mn, mx, f, o, ch⟩ := st
  unfold sltStep at h
  simp only [bind, Except.bind, pure, Except.pure] at h
  repeat' split at h
  all_goals (try cases h)
  all_goals simp_all [projMin, projMax]

/-- The document loop equals the list-level fold once the per-scale lookups
are known to succeed. -/
theorem sltBody_eq_sltFold (ctx : Ctx) :
    ∀ (ps : List Pos) (sds : List ScaleData) (st : SltState),
      scaleDataList ctx ps = .ok sds →
      ps.foldlM (sltBody ctx) st = sltFold sds st := by
  intro ps
  induction ps with
  | nil =>
      intro sds st h
      simp only [scaleDataList] at h
      injection h with h
      rw [← h]
      rfl
  | cons p rest ih =>
      intro sds st h
      simp only [scaleDataList, bind, Except.bind] at h
      cases hsd : scaleDataOf ctx p with
      | error e => simp only [hsd] at h; cases h
      | ok sd =>
          simp only [hsd] at h
          cases htl : scaleDataList ctx rest with
          | error e => simp only [htl] at h; cases h
          | ok tl =>
              simp only [htl, pure, Except.pure] at h
              injection h with h
              rw [← h]
              simp only [List.foldlM, sltFold, sltBody, bind, Except.bind]
              simp only [hsd]
              cases hstep : sltStep st sd with
              | error e => simp only [hstep]
              | ok st' =>
                  simp only [hstep]
                  exact ih tl st' htl

/-- Last one wins: the factor and offset of a finished fold are the last
present coefficient pair, else the incoming pair. -/
theorem sltFold_last_wins :
    ∀ (sds : List ScaleData) (st res : SltState),
      sltFold sds st = .ok res →
      (res.2.2.1, res.2.2.2.1) =
        (sds.filterMap ScaleData.coeffs).getLastD (st.2.2.1, st.2.2.2.1) := by
  intro sds
  induction sds with
  | nil =>
      intro st res h
      injection h with h
      rw [← h]
      rfl
  | cons sd rest ih =>
      intro st res h
      simp only [sltFold, bind, Except.bind] at h
      cases hstep : sltStep st sd with
      | error e => rw [hstep] at h; cases h
      | ok st' =>
          rw [hstep] at h
          obtain ⟨hf, ho, _, _, _⟩ := sltStep_ok_spec st sd st' hstep
          have := ih st' res h
          cases hco : sd.coeffs with
          | none =>
              rw [hco] at hf ho
              simp only [List.filterMap_cons, hco]
              rw [this, hf, ho]
          | some fo =>
              rw [hco] at hf ho
              simp only [List.filterMap_cons, hco, List.getLastD_cons]
              rw [this, hf, ho]

/-- Keys of the running choices table survive the fold. -/
theorem sltFold_choices_mono :
    ∀ (sds : List ScaleData) (st res : SltState),
      sltFold sds st = .ok res →
      ∀ a, a ∈ keysOf st.2.2.2.2 → a ∈ keysOf res.2.2.2.2 := by
  intro sds
  induction sds with
  | nil =>
      intro st res h a ha
      injection h with h
      rw [← h]
      exact ha
  | cons sd rest ih =>
      intro st res h a ha
      simp only [sltFold, bind, Except.bind] at h
      cases hstep : sltStep st sd with
      | error e => rw [hstep] at h; cases h
      | ok st' =>
          rw [hstep] at h
          obtain ⟨_, _, _, _, hch⟩ := sltStep_ok_spec st sd st' hstep
          refine ih st' res h a ?_
          cases hvt : sd.vtName with
          | none => rw [hvt] at hch; rw [hch]; exact ha
          | some nm =>
              rw [hvt] at hch
              obtain ⟨v, _, _, hset⟩ := hch
              rw [hset]
              exact mem_keysOf_dictSet_mono _ _ _ _ ha

/-- Every single-point named scale of a finished fold has its value among
the final choices keys. -/
theorem sltFold_choices_insert :
    ∀ (sds : List ScaleData) (st res : SltState),
      sltFold sds st = .ok res →
      ∀ sd ∈ sds, ∀ nm, sd.vtName = some nm →
        ∃ v, sd.minIntScale = some v ∧ sd.maxIntScale = some v ∧
             v ∈ keysOf res.2.2.2.2 := by
  intro sds
  induction sds with
  | nil =>
      intro st res h sd hsd
      simp at hsd
  | cons sd0 rest ih =>
      intro st res h sd hsd nm hnm
      simp only [sltFold, bind, Except.bind] at h
      cases hstep : sltStep st sd0 with
      | error e => rw [hstep] at h; cases h
      | ok st' =>
          rw [hstep] at h
          rcases List.mem_cons.mp hsd with hEq | hmem
          · subst hEq
            obtain ⟨_, _, _, _, hch⟩ := sltStep_ok_spec st sd st' hstep
            rw [hnm] at hch
            obtain ⟨v, hv1, hv2, hset⟩ := hch
            refine ⟨v, hv1, hv2, ?_⟩
            refine sltFold_choices_mono rest st' res h v ?_
            rw [hset]
            exact mem_keysOf_dictSet_self _ _ _
          · exact ih st' res h sd hmem nm hnm

/-- Running-minimum invariant: with a present running minimum, a finished
fold ends at the least of the incoming value and the projected lower
limits, and that least value is attained. -/
theorem sltFold_min_inv :
    ∀ (sds : List ScaleData) (st res : SltState) (cur : ℚ),
      st.1 = some cur →
      sltFold sds st = .ok res →
      ∃ q, res.1 = some q ∧ (q = cur ∨ q ∈ sds.filterMap projMin) ∧
           q ≤ cur ∧ ∀ x ∈ sds.filterMap projMin, q ≤ x := by
  intro sds
  induction sds with
  | nil =>
      intro st res cur hc h
      injection h with h
      rw [← h]
      exact ⟨cur, hc, .inl rfl, le_refl cur, by simp⟩
  | cons sd rest ih =>
      intro st res cur hc h
      simp only [sltFold, bind, Except.bind] at h
      cases hstep : sltStep st sd with
      | error e => rw [hstep] at h; cases h
      | ok st' =>
          rw [hstep] at h
          obtain ⟨_, _, hmin, _, _⟩ := sltStep_ok_spec st sd st' hstep
          rw [hc] at hmin
          cases hpm : projMin sd with
          | none =>
              rw [hpm] at hmin
              obtain ⟨q, hq, hor, hle, hall⟩ := ih st' res cur hmin h
              refine ⟨q, hq, ?_, hle, ?_⟩
              · rcases hor with hor | hor
                · exact .inl hor
                · exact .inr (by simp [List.filterMap_cons, hpm, hor])
              · intro x hx
                simp only [List.filterMap_cons, hpm] at hx
                exact hall x hx
          | some pm =>
              rw [hpm] at hmin
              obtain ⟨q, hq, hor, hle, hall⟩ := ih st' res (min cur pm) hmin h
              refine ⟨q, hq, ?_, le_trans hle (min_le_left cur pm), ?_⟩
              · rcases hor with hor | hor
                · rcases min_choice cur pm with hm | hm
                  · exact .inl (by rw [hor, hm])
                  · refine .inr ?_
                    simp only [List.filterMap_cons, hpm, List.mem_cons]
                    exact .inl (by rw [hor, hm])
                · refine .inr ?_
                  simp only [List.filterMap_cons, hpm, List.mem_cons]
                  exact .inr hor
              · intro x hx
                simp only [List.filterMap_cons, hpm, List.mem_cons] at hx
                rcases hx with hx | hx
                · rw [hx]
                  exact le_trans hle (min_le_right cur pm)
                · exact hall x hx

/-- Running-maximum invariant, dual to the minimum one. -/
theorem sltFold_max_inv :
    ∀ (sds : List ScaleData) (st res : SltState) (cur : ℚ),
      st.2.1 = some cur →
      sltFold sds st = .ok res →
      ∃ q, res.2.1 = some q ∧ (q = cur ∨ q ∈ sds.filterMap projMax) ∧
           cur ≤ q ∧ ∀ x ∈ sds.filterMap projMax, x ≤ q := by
  intro sds
  induction sds with
  | nil =>
      intro st res cur hc h
      injection h with h
      rw [← h]
      exact ⟨cur, hc, .inl rfl, le_refl cur, by simp⟩
  | cons sd rest ih =>
      intro st res cur hc h
      simp only [sltFold, bind, Except.bind] at h
      cases hstep : sltStep st sd with
      | error e => rw [hstep] at h; cases h
      | ok st' =>
          rw [hstep] at h
          obtain ⟨_, _, _, hmax, _⟩ := sltStep_ok_spec st sd st' hstep
          rw [hc] at hmax
          cases hpm : projMax sd with
          | none =>
              rw [hpm] at hmax
              obtain ⟨q, hq, hor, hle, hall⟩ := ih st' res cur hmax h
              refine ⟨q, hq, ?_, hle, ?_⟩
              · rcases hor with hor | hor
                · exact .inl hor
                · exact .inr (by simp [List.filterMap_cons, hpm, hor])
              · intro x hx
                simp only [List.filterMap_cons, hpm] at hx
                exact hall x hx
          | some pm =>
              rw [hpm] at hmax
              obtain ⟨q, hq, hor, hle, hall⟩ := ih st' res (max cur pm) hmax h
              refine ⟨q, hq, ?_, le_trans (le_max_left cur pm) hle, ?_⟩
              · rcases hor with hor | hor
                · rcases max_choice cur pm with hm | hm
                  · exact .inl (by rw [hor, hm])
                  · refine .inr ?_
                    simp only [List.filterMap_cons, hpm, List.mem_cons]
                    exact .inl (by rw [hor, hm])
                · refine .inr ?_
                  simp only [List.filterMap_cons, hpm, List.mem_cons]
                  exact .inr hor
              · intro x hx
                simp only [List.filterMap_cons, hpm, List.mem_cons] at hx
                rcases hx with hx | hx
                · rw [hx]
                  exact le_trans (le_max_right cur pm) hle
                · exact hall x hx

/-- C8: for a SCALE_LINEAR_AND_TEXTTABLE compu method whose scale lookups
succeed, a successful load returns the factor and offset of the last scale
carrying a coefficient pair (1 and 0 if none does); every single-point
named scale contributes its value to the final choices keys; and the
returned minimum (maximum) is the least (greatest) of the per-scale
projected lower (upper) limits, each limit projected through its own
scale's coefficients. -/
theorem c8_scale_linear_and_texttable (ctx : Ctx) (compuMethod : Pos)
    (ps : List Pos) (sds : List ScaleData) (res : SltState)
    (hps : getArxmlChildren ctx [compuMethod]
      ["&COMPU-INTERNAL-TO-PHYS", "COMPU-SCALES", "*&COMPU-SCALE"] = .ok ps)
    (hsd : scaleDataList ctx ps = .ok sds)
    (hload : load_scale_linear_and_texttable ctx compuMethod = .ok res) :
    (res.2.2.1, res.2.2.2.1) =
      (sds.filterMap ScaleData.coeffs).getLastD (1, 0) ∧
    (∀ sd ∈ sds, ∀ nm, sd.vtName = some nm →
       ∃ v, sd.minIntScale = some v ∧ sd.maxIntScale = some v ∧
            v ∈ keysOf res.2.2.2.2) ∧
    (∃ q, res.1 = some q ∧ q ∈ sds.filterMap projMin ∧
          ∀ x ∈ sds.filterMap projMin, q ≤ x) ∧
    (∃ q, res.2.1 = some q ∧ q ∈ sds.filterMap projMax ∧
          ∀ x ∈ sds.filterMap projMax, x ≤ q) := by
  unfold load_scale_linear_and_texttable at hload
  simp only [bind, Except.bind] at hload
  simp only [hps] at hload
  rw [sltBody_eq_sltFold ctx ps sds _ hsd] at hload
  cases hfold : sltFold sds (none, none, 1, 0, []) with
  | error e => simp only [hfold] at hload; cases hload
  | ok fr =>
      simp only [hfold] at hload
      obtain ⟨mn, mx, f, o, ch⟩ := fr
      cases mn with
      | none => cases hload
      | some a =>
          cases mx with
          | none => cases hload
          | some b =>
              simp only [pure, Except.pure] at hload
              injection hload with hload
              rw [← hload]
              refine ⟨?_, ?_, ?_, ?_⟩
              · exact sltFold_last_wins sds _ _ hfold
              · exact sltFold_choices_insert sds _ _ hfold
              · cases sds with
                | nil =>
                    injection hfold with hfold
                    cases hfold
                | cons sd0 rest =>
                    simp only [sltFold, bind, Except.bind] at hfold
                    cases hstep : sltStep (none, none, 1, 0, []) sd0 with
                    | error e => rw [hstep] at hfold; cases hfold
                    | ok st1 =>
                        rw [hstep] at hfold
                        obtain ⟨_, _, hmin, _, _⟩ :=
                          sltStep_ok_spec _ sd0 st1 hstep
                        cases hpm : projMin sd0 with
                        | none =>
                            rw [hpm] at hmin
                            exact absurd hmin (by simp)
                        | some pm0 =>
                            rw [hpm] at hmin
                            obtain ⟨q, hq, hor, hle, hall⟩ :=
                              sltFold_min_inv rest st1 _ pm0 hmin hfold
                            refine ⟨q, hq, ?_, ?_⟩
                            · simp only [List.filterMap_cons, hpm,
                                List.mem_cons]
                              rcases hor with hor | hor
                              · exact .inl hor
                              · exact .inr hor
                            · intro x hx
                              simp only [List.filterMap_cons, hpm,
                                List.mem_cons] at hx
                              rcases hx with hx | hx
                              · rw [hx]; exact hle
                              · exact hall x hx
              · cases sds with
                | nil =>
                    injection hfold with hfold
                    cases hfold
                | cons sd0 rest =>
                    simp only [sltFold, bind, Except.bind] at hfold
                    cases hstep : sltStep (none, none, 1, 0, []) sd0 with
                    | error e => rw [hstep] at hfold; cases hfold
                    | ok st1 =>
                        rw [hstep] at hfold
                        obtain ⟨_, _, _, hmax, _⟩ :=
                          sltStep_ok_spec _ sd0 st1 hstep
                        cases hpm : projMax sd0 with
                        | none =>
                            rw [hpm] at hmax
                            exact absurd hmax (by simp)
                        | some pm0 =>
                            rw [hpm] at hmax
                            obtain ⟨q, hq, hor, hle, hall⟩ :=
                              sltFold_max_inv rest st1 _ pm0 hmax hfold
                            refine ⟨q, hq, ?_, ?_⟩
                            · simp only [List.filterMap_cons, hpm,
                                List.mem_cons]
                              rcases hor with hor | hor
                              · exact .inl hor
                              · exact .inr hor
                            · intro x hx
                              simp only [List.filterMap_cons, hpm,
                                List.mem_cons] at hx
                              rcases hx with hx | hx
                              · rw [hx]; exact hle
                              · exact hall x hx

/-- A linear COMPU-SCALE with the given limits and numerator pair over
denominator 1. -/
def mkLinScale (lo hi n0 n1 : String) : XmlElem :=
  xe "COMPU-SCALE" [
    xt "LOWER-LIMIT" lo,
    xt "UPPER-LIMIT" hi,
    xe "COMPU-RATIONAL-COEFFS" [
      xe "COMPU-NUMERATOR" [xt "V" n0, xt "V" n1],
      xe "COMPU-DENOMINATOR" [xt "V" "1"]
    ]
  ]

/-- A SCALE_LINEAR_AND_TEXTTABLE compu method with two differing linear
scales and one single-point named scale. -/
def c8Doc : XmlElem :=
  xe "COMPU-METHOD" [
    xt "SHORT-NAME" "CM",
    xe "COMPU-INTERNAL-TO-PHYS" [
      xe "COMPU-SCALES" [
        mkLinScale "0" "10" "1" "2",
        mkLinScale "0" "20" "0" "5",
        xe "COMPU-SCALE" [
          xt "LOWER-LIMIT" "42",
          xt "UPPER-LIMIT" "42",
          xe "COMPU-CONST" [xt "VT" "Answer"]
        ]
      ]
    ]
  ]

/-- Its loader context (no references occur). -/
def c8Ctx : Ctx := ⟨c8Doc, RefState.empty, 4, 0, 0⟩

/-- The scale data of c8Doc. -/
def c8Sds : List ScaleData :=
  [⟨some 0, some 10, some (2, 1), none, none⟩,
   ⟨some 0, some 20, some (5, 0), none, none⟩,
   ⟨some 42, some 42, none, some (some "Answer"), none⟩]

/-- The load result of c8Doc: last linear scale wins the factor and offset,
the named point is a choices entry, minimum 0 and maximum 100 aggregate
over all three scales. -/
def c8Res : SltState :=
  (some 0, some 100, 5, 0, [(42, ⟨42, some "Answer", none⟩)])

set_option synthInstance.maxSize 512 in
set_option maxHeartbeats 1000000 in
/-- C8 witness: the three scales of c8Doc load, the theorem applies, and
the concluded factor, offset, choices key and aggregated bounds are
attained on the computed result. -/
theorem c8_witness :
    (getArxmlChildren c8Ctx [[]]
       ["&COMPU-INTERNAL-TO-PHYS", "COMPU-SCALES", "*&COMPU-SCALE"] =
       .ok [[1, 0, 0], [1, 0, 1], [1, 0, 2]] ∧
     scaleDataList c8Ctx [[1, 0, 0], [1, 0, 1], [1, 0, 2]] = .ok c8Sds ∧
     load_scale_linear_and_texttable c8Ctx [] = .ok c8Res) ∧
    ((c8Res.2.2.1, c8Res.2.2.2.1) =
       (c8Sds.filterMap ScaleData.coeffs).getLastD (1, 0) ∧
     (∀ sd ∈ c8Sds, ∀ nm, sd.vtName = some nm →
        ∃ v, sd.minIntScale = some v ∧ sd.maxIntScale = some v ∧
             v ∈ keysOf c8Res.2.2.2.2) ∧
     (∃ q, c8Res.1 = some q ∧ q ∈ c8Sds.filterMap projMin ∧
           ∀ x ∈ c8Sds.filterMap projMin, q ≤ x) ∧
     (∃ q, c8Res.2.1 = some q ∧ q ∈ c8Sds.filterMap projMax ∧
           ∀ x ∈ c8Sds.filterMap projMax, x ≤ q)) :=
  ⟨⟨by decide, by with_unfolding_all decide, by with_unfolding_all decide⟩,
   c8_scale_linear_and_texttable c8Ctx [] [[1, 0, 0], [1, 0, 1], [1, 0, 2]]
     c8Sds c8Res (by decide) (by with_unfolding_all decide)
     (by with_unfolding_all decide)⟩

/-! ## C9 -/

/-- Is an ECUC container a ComIPdu container (definition reference ends in
ComIPdu)? -/
def isComIPdu (c : XmlElem) : Bool :=
  match containerDefRef c with
  | .ok t => pyEndsWith t "ComIPdu"
  | .error _ => false

/-- Does load_message skip this container (successful result None)? -/
def ecuSkipped (root c : XmlElem) : Bool :=
  match ecuLoadMessage root c with
  | .ok none => true
  | _ => false

/-- C9: a ComIPdu container of the EcuExtractLoader whose resolved CanIf
entry leaves the CAN id, the addressing mode or the length absent is
skipped — load_message returns None instead of raising — and the container
loop turns exactly the non-skipped ComIPdu containers into messages:
returned count + skipped count = incoming count + ComIPdu-container
count. -/
theorem c9_skip_and_count (root : XmlElem) :
    (∀ (c sn : XmlElem) (ref : String)
       (fid len : Option Int) (ext : Option Bool),
       eFind c [st0 "SHORT-NAME"] = some sn →
       findParamValue c "ComIPduDirection" = .ok (some (some "SEND")) →
       findRefValue c "ComPduIdRef" = .ok (some (some ref)) →
       loadMessageRxTx root ref "CanIfTxPduCanId" "CanIfTxPduDlc"
         "CanIfTxPduCanIdType" = .ok (fid, len, ext) →
       (fid = none ∨ ext = none ∨ len = none) →
       ecuLoadMessage root c = .ok none) ∧
    (∀ (cs : List XmlElem) (msgs out : List CMessage),
       ecuIPduLoop root cs msgs = .ok out →
       out.length + cs.countP (fun c => isComIPdu c && ecuSkipped root c) =
         msgs.length + cs.countP (fun c => isComIPdu c)) := by
  constructor
  · intro c sn ref fid len ext hsn hdir href hrxtx hmiss
    unfold ecuLoadMessage
    simp only [bind, Except.bind, pure, Except.pure]
    simp only [hsn, hdir, href]
    simp only [reduceIte]
    simp only [hrxtx]
    rcases fid with _ | fv
    · rfl
    · rcases ext with _ | ev
      · rfl
      · rcases len with _ | lv
        · rfl
        · rcases hmiss with hmiss | hmiss | hmiss
          all_goals cases hmiss
  · intro cs
    induction cs with
    | nil =>
        intro msgs out h
        injection h with h
        rw [← h]
        simp
    | cons c rest ih =>
        intro msgs out h
        simp only [ecuIPduLoop, bind, Except.bind] at h
        cases hdr : containerDefRef c with
        | error e => simp only [hdr] at h; cases h
        | ok drt =>
            simp only [hdr] at h
            have hic : isComIPdu c = pyEndsWith drt "ComIPdu" := by
              simp [isComIPdu, hdr]
            by_cases hip : pyEndsWith drt "ComIPdu" = true
            · rw [hip] at hic
              simp only [hip, not_true_eq_false, if_neg] at h
              simp only [ite_false] at h
              cases hm : ecuLoadMessage root c with
              | error e => simp only [hm] at h; cases h
              | ok mo =>
                  simp only [hm] at h
                  have hsk : ecuSkipped root c =
                      (match mo with | none => true | some _ => false) := by
                    simp [ecuSkipped, hm]
                    cases mo <;> simp
                  cases mo with
                  | some msg =>
                      have hrec := ih (msgs ++ [msg]) out h
                      simp only [List.length_append, List.length_cons,
                        List.length_nil] at hrec
                      simp [List.countP_cons, hic, hsk]
                      omega
                  | none =>
                      have hrec := ih msgs out h
                      simp [List.countP_cons, hic, hsk]
                      omega
            · have hipf : pyEndsWith drt "ComIPdu" = false :=
                Bool.eq_false_iff.mpr hip
              rw [hipf] at hic
              simp only [hipf, Bool.not_false, if_pos] at h
              have hrec := ih msgs out h
              simp only [List.countP_cons, hic, Bool.false_and]
              simpa using hrec

/-- An ECUC textual parameter value. -/
def pv (defref v : String) : XmlElem :=
  xe "ECUC-TEXTUAL-PARAM-VALUE" [xt "DEFINITION-REF" defref, xt "VALUE" v]

/-- An ECUC reference value. -/
def rv (defref v : String) : XmlElem :=
  xe "ECUC-REFERENCE-VALUE" [xt "DEFINITION-REF" defref, xt "VALUE-REF" v]

/-- A ComIPdu container sending the referenced PDU. -/
def mkIPdu (nm pduRef : String) : XmlElem :=
  xe "ECUC-CONTAINER-VALUE" [
    xt "SHORT-NAME" nm,
    xt "DEFINITION-REF" "/X/Com/ComIPdu",
    xe "PARAMETER-VALUES" [pv "/X/Com/ComIPdu/ComIPduDirection" "SEND"],
    xe "REFERENCE-VALUES" [rv "/X/Com/ComIPdu/ComPduIdRef" pduRef]
  ]

/-- A CanIfTxPduCfg container for the referenced PDU, optionally without
its CAN id. -/
def mkTxCfg (pduRef : String) (withId : Bool) : XmlElem :=
  xe "ECUC-CONTAINER-VALUE" [
    xt "DEFINITION-REF" "/X/CanIf/CanIfTxPduCfg",
    xe "PARAMETER-VALUES"
      ((if withId then [pv "/X/CanIfTxPduCanId" "123"] else []) ++
       [pv "/X/CanIfTxPduDlc" "8", pv "/X/CanIfTxPduCanIdType" "STANDARD_CAN"]),
    xe "REFERENCE-VALUES" [rv "/X/CanIfTxPduRef" pduRef]
  ]

/-- The ComIPdu container whose CanIf entry lacks the CAN id. -/
def c9MsgB : XmlElem := mkIPdu "MsgB" "/Pkg/PduB"

/-- The ComConfig sub-containers: two ComIPdus and one other container. -/
def c9Subs : List XmlElem :=
  [mkIPdu "MsgA" "/Pkg/PduA", c9MsgB,
   xe "ECUC-CONTAINER-VALUE" [xt "DEFINITION-REF" "/X/Other"]]

/-- An ECU extract with two SEND ComIPdus; the CanIf entry of the second
has no CanIfTxPduCanId. -/
def c9Doc : XmlElem :=
  xe "AUTOSAR" [
    xe "AR-PACKAGES" [
      xe "AR-PACKAGE" [
        xt "SHORT-NAME" "Pkg",
        xe "ELEMENTS" [
          xe "ECUC-VALUE-COLLECTION" [
            xe "ECUC-VALUES" [
              xe "ECUC-MODULE-CONFIGURATION-VALUES-REF-CONDITIONAL" [
                xt "ECUC-MODULE-CONFIGURATION-VALUES-REF" "/Pkg/Com"
              ]
            ]
          ],
          xe "ECUC-MODULE-CONFIGURATION-VALUES" [
            xt "SHORT-NAME" "Com",
            xe "CONTAINERS" [
              xe "ECUC-CONTAINER-VALUE" [
                xt "SHORT-NAME" "ComConfig",
                xe "SUB-CONTAINERS" c9Subs
              ]
            ]
          ],
          xe "ECUC-MODULE-CONFIGURATION-VALUES" [
            xt "SHORT-NAME" "CanIf",
            xe "CONTAINERS" [
              xe "ECUC-CONTAINER-VALUE" [
                xt "SHORT-NAME" "CanIfInitCfg",
                xe "SUB-CONTAINERS" [
                  mkTxCfg "/Pkg/PduA" true,
                  mkTxCfg "/Pkg/PduB" false
                ]
              ]
            ]
          ]
        ]
      ]
    ]
  ]

/-- The loaded messages of c9Doc: MsgA only, MsgB is skipped. -/
def c9Out : List CMessage := [⟨123, false, some "MsgA", 8, [], none, none⟩]

set_option maxHeartbeats 1000000 in
/-- C9 witness: MsgB's CanIf entry resolves without a CAN id, the theorem
concludes load_message returns None for it, and on the three ComConfig
containers the loop returns exactly one message: 1 + 1 skipped = 0 + 2
ComIPdu containers. -/
theorem c9_witness :
    (eFind c9MsgB [st0 "SHORT-NAME"] = some (xt "SHORT-NAME" "MsgB") ∧
     findParamValue c9MsgB "ComIPduDirection" = .ok (some (some "SEND")) ∧
     findRefValue c9MsgB "ComPduIdRef" = .ok (some (some "/Pkg/PduB")) ∧
     loadMessageRxTx c9Doc "/Pkg/PduB" "CanIfTxPduCanId" "CanIfTxPduDlc"
       "CanIfTxPduCanIdType" = .ok (none, some 8, some false)) ∧
    ecuLoadMessage c9Doc c9MsgB = .ok none ∧
    (ecuIPduLoop c9Doc c9Subs [] = .ok c9Out ∧ ecuLoad c9Doc = .ok c9Out) ∧
    c9Out.length +
        c9Subs.countP (fun c => isComIPdu c && ecuSkipped c9Doc c) =
      ([] : List CMessage).length + c9Subs.countP (fun c => isComIPdu c) :=
  ⟨⟨rfl, by decide, by decide, by decide⟩,
   (c9_skip_and_count c9Doc).1 c9MsgB (xt "SHORT-NAME" "MsgB") "/Pkg/PduB"
     none (some 8) (some false) rfl (by decide) (by decide)
     (by decide) (.inl rfl),
   ⟨by decide, by decide⟩,
   (c9_skip_and_count c9Doc).2 c9Subs [] c9Out (by decide)⟩

end Arxml
